import Mathlib

/-!
# wgorm: configuration resolution, handles and the transaction scope

A shallow embedding of `config.go`, `wgorm.go` and
`examples/repolayer/repository/repo.go`.

Conventions of the embedding

* Go `string` values are Lean `String`s, that is, they are taken to be valid
  UTF-8; their contents are inspected as `List Char` (`String.data`).
* Go `int` / `int32` values are `Int`; no arithmetic is done on them in the
  embedded code, only comparison with `0` and decimal formatting.
* `error` values are their messages (`errors.WithStack` keeps the message).
* A function that can return an error returns `Except`.
-/

namespace Wgorm

/-! ## fmt.Sprintf, for the verbs the sources use -/

/-- Go `error`: the message carried by the value. -/
abbrev Error := String

/-- Operands handed to `fmt.Sprintf` / `fmt.Errorf` / `Msgf` in the sources. -/
inductive Arg where
  | str (s : String)
  | int (n : Int)
  | err (e : Error)
  deriving DecidableEq, Repr

/-- Decimal rendering of an integer as `%d` prints it: an optional minus sign
followed by the digits of the absolute value. -/
def fmtInt (n : Int) : List Char :=
  if n < 0 then '-' :: Nat.toDigits 10 n.natAbs else Nat.toDigits 10 n.toNat

/-- Rendering of one operand under a verb.  `%s` and `%v`/`%+v` print a string
or an error message as is, `%d` prints an integer in decimal, a string operand
under `%v` is printed as is as well.  An integer under `%s` or a string under
`%d` is reported the way package fmt reports a bad verb. -/
def fmtArg (verb : Char) : Arg → List Char
  | Arg.str s => if verb = 'd' then "%!d(string=".data ++ s.data ++ [')'] else s.data
  | Arg.err e => if verb = 'd' then "%!d(string=".data ++ e.data ++ [')'] else e.data
  | Arg.int n => if verb = 's' then "%!s(int=".data ++ fmtInt n ++ [')'] else fmtInt n

/-- The format interpreter: literal text is copied, each of the verbs `%s`,
`%d`, `%v`, `%+v` consumes the next operand. A verb with no operand left
prints `%!v(MISSING)` with its own letter. -/
def sprintfAux : List Char → List Arg → List Char
  | [], _ => []
  | '%' :: '+' :: 'v' :: rest, a :: args => fmtArg 'v' a ++ sprintfAux rest args
  | '%' :: 's' :: rest, a :: args => fmtArg 's' a ++ sprintfAux rest args
  | '%' :: 'd' :: rest, a :: args => fmtArg 'd' a ++ sprintfAux rest args
  | '%' :: 'v' :: rest, a :: args => fmtArg 'v' a ++ sprintfAux rest args
  | '%' :: 's' :: rest, [] => "%!s(MISSING)".data ++ sprintfAux rest []
  | '%' :: 'd' :: rest, [] => "%!d(MISSING)".data ++ sprintfAux rest []
  | '%' :: 'v' :: rest, [] => "%!v(MISSING)".data ++ sprintfAux rest []
  | c :: rest, args => c :: sprintfAux rest args

/-- Model of `fmt.Sprintf(format, args...)`. -/
def Sprintf (format : String) (args : List Arg) : String :=
  String.mk (sprintfAux format.data args)

/-! ## strings.TrimSpace -/

/-- Predicate `unicode.IsSpace`: the Latin-1 spaces and the code points of
category Z. -/
def isSpace (c : Char) : Bool :=
  c = '\t' || c = '\n' || c = Char.ofNat 0x0B || c = Char.ofNat 0x0C || c = '\r' || c = ' '
    || c = Char.ofNat 0x85 || c = Char.ofNat 0xA0 || c = Char.ofNat 0x1680
    || (0x2000 ≤ c.toNat && c.toNat ≤ 0x200A)
    || c = Char.ofNat 0x2028 || c = Char.ofNat 0x2029 || c = Char.ofNat 0x202F
    || c = Char.ofNat 0x205F || c = Char.ofNat 0x3000

/-- Model of `strings.TrimSpace`: leading and trailing white space removed. -/
def TrimSpace (s : String) : String :=
  String.mk ((s.data.dropWhile isSpace).reverse.dropWhile isSpace).reverse

/-! ## config.go -/

/-- Type `DatabaseDriver`. -/
abbrev DatabaseDriver := String

/-- Constant `Postgres`. -/
def Postgres : DatabaseDriver := "postgres"

/-- Struct `ConnConfig`. -/
structure ConnConfig where
  Host : String
  Port : Int
  Username : String
  Password : String
  DBName : String
  SearchPath : String
  SSLEnable : Bool
  dsn : String
  deriving DecidableEq, Repr

/-- Struct `logger.Config`. -/
structure LogConfig where
  LogLevel : Int
  SlowThresholdMs : Int
  IgnoreRecordNotFoundError : Bool
  Colorful : Bool
  slowThreshold : Int
  deriving DecidableEq, Repr

/-- Struct `Config`. -/
structure Config where
  Driver : DatabaseDriver
  MaxIdleConns : Int
  MaxOpenConns : Int
  ConnMaxLifeTimeSec : Int
  Master : ConnConfig
  Slave : List ConnConfig
  Log : LogConfig
  deriving DecidableEq, Repr

/-- Method `(*ConnConfig).setPostgresDSN`: the receiver after the call. -/
def ConnConfig.setPostgresDSN (cc : ConnConfig) : ConnConfig :=
  let dsn := Sprintf "user=%s password=%s host=%s port=%d dbname=%s"
    [Arg.str cc.Username, Arg.str cc.Password, Arg.str cc.Host, Arg.int cc.Port, Arg.str cc.DBName]
  let dsn := if cc.SSLEnable then dsn ++ " sslmode=require" else dsn ++ " sslmode=disable"
  let dsn := if TrimSpace cc.SearchPath ≠ "" then
      Sprintf "%s search_path=%s" [Arg.str dsn, Arg.str cc.SearchPath]
    else dsn
  { cc with dsn := dsn }

/-- The error built by `errors.WithStack(fmt.Errorf("not support driver:%s", cfg.Driver))`. -/
def notSupportDriver (d : DatabaseDriver) : Error :=
  Sprintf "not support driver:%s" [Arg.str d]

/-- Method `(*Config).clone`: a copy of the configuration, or the error. -/
def Config.clone (cfg : Config) : Except Error Config :=
  if cfg.Driver = Postgres then Except.ok cfg
  else Except.error (notSupportDriver cfg.Driver)

/-- Method `(*Config).setDSN`: the receiver after the call, or the error. -/
def Config.setDSN (cfg : Config) : Except Error Config :=
  if cfg.Driver = Postgres then
    Except.ok { cfg with
      Master := cfg.Master.setPostgresDSN
      Slave := cfg.Slave.map ConnConfig.setPostgresDSN }
  else Except.error (notSupportDriver cfg.Driver)

/-- Method `(*Config).setConnectionInfo`: the receiver after the call, or the
error of `setDSN`. -/
def Config.setConnectionInfo (cfg : Config) : Except Error Config :=
  match cfg.setDSN with
  | Except.error e => Except.error e
  | Except.ok cfg =>
    let cfg := if cfg.MaxIdleConns = 0 then { cfg with MaxIdleConns := 50 } else cfg
    let cfg := if cfg.MaxOpenConns = 0 then { cfg with MaxOpenConns := 100 } else cfg
    let cfg := if cfg.ConnMaxLifeTimeSec = 0 then { cfg with ConnMaxLifeTimeSec := 3600 } else cfg
    Except.ok cfg

/-! ## The gorm library, as far as wgorm uses it

`gorm.DB` is an external collaborator. A `*gorm.DB` is an address in a heap of
`gorm.DB` objects, so that two handles can share one. gorm keeps a counter
`clone` in every `*gorm.DB`: a chain method such as `Clauses` works on
`getInstance()`, which is a new object when the receiver is a session
(`clone > 0`) and the receiver itself, changed in place, when the receiver is
already the result of a chain method (`clone = 0`). What the database answers
is not fixed by the sources: it is a parameter, `Backend`, that may depend on
everything that happened before (the event log). -/

/-- Type `context.Context`, by identity. -/
abbrev Context := Nat

/-- Type `*sql.TxOptions`, by identity. -/
abbrev TxOptions := Nat

/-- The clauses wgorm and the repository layer attach to a statement. -/
inductive Clause where
  | Locking (Strength : String)
  | OnConflict
  deriving DecidableEq, Repr

/-- Method `Name()` of a clause: the key under which a statement stores it. -/
def Clause.Name : Clause → String
  | Clause.Locking _ => "FOR"
  | Clause.OnConflict => "ON CONFLICT"

/-- What wgorm observes of a `gorm.DB` object: its target, the bound context,
whether its connection pool is a transaction, the clauses of its statement
(one per clause name), the registered replicas, the pool limits, and the
counter `clone` (1 for what `gorm.Open` returns, 2 for a session made by
`WithContext` or `Begin`, 0 for what a chain method returns). -/
structure gorm.DB where
  dsn : String
  ctx : Option Context
  inTx : Bool
  clauses : List Clause
  replicas : List String
  maxIdleConns : Int
  maxOpenConns : Int
  connMaxLifetimeSec : Int
  clone : Nat
  deriving DecidableEq, Repr

/-- Contents of the session that `(*gorm.DB).WithContext` returns: the
statement is copied, the context is set, and `clone` is 2. -/
def gorm.DB.WithContext (db : gorm.DB) (ctx : Context) : gorm.DB :=
  { db with ctx := some ctx, clone := 2 }

/-- Contents of the new object that `getInstance` makes for a session: a copy
of the statement, or an empty statement when `clone` is 1; its own `clone` is 0. -/
def gorm.DB.instance (db : gorm.DB) : gorm.DB :=
  { db with clauses := if db.clone = 1 then [] else db.clauses, clone := 0 }

/-- Contents of the session that `Begin` makes before it begins the
transaction, `getInstance().Session(...)`: `clone` stays 1 for a receiver with
`clone` 1 and is 2 otherwise. -/
def gorm.DB.session (db : gorm.DB) : gorm.DB :=
  { db with clauses := if db.clone = 1 then [] else db.clauses,
            clone := if db.clone = 1 then 1 else 2 }

/-- Method `(*Statement).AddClause`: the statement stores the clause under its
name; `Locking` and `OnConflict` replace an earlier clause of the same name. -/
def gorm.DB.AddClause (db : gorm.DB) (c : Clause) : gorm.DB :=
  { db with clauses := db.clauses.filter (fun d => d.Name ≠ c.Name) ++ [c] }

/-- Number of locking clauses of strength `s` carried by a `gorm.DB`. -/
def gorm.DB.lockCount (db : gorm.DB) (s : String) : Nat :=
  db.clauses.count (Clause.Locking s)

/-- Number of locking clauses of any strength carried by a `gorm.DB`. -/
def gorm.DB.anyLockCount (db : gorm.DB) : Nat :=
  db.clauses.countP (fun c => c.Name = "FOR")

/-! ## wgorm.go: handles -/

/-- A `*gorm.DB`: an address in the heap of `gorm.DB` objects. -/
abbrev DBPtr := Nat

/-- Struct `connection`. -/
structure connection where
  db : Option DBPtr
  cfg : Option Config
  deriving DecidableEq, Repr

/-- Struct `Gorm`: the embedded `*gorm.DB` (nil when unbound) and `conn`. -/
structure Gorm where
  DB : Option DBPtr
  conn : connection
  deriving DecidableEq, Repr

/-- A `*Gorm`: an address in the heap of handles. -/
abbrev Ptr := Nat

/-- Calls that reach the database or the logger, in the order they are made. -/
inductive Event where
  | open (dsn : String)
  | ping (dsn : String)
  | use (replicas : List String)
  | beginTx (db : gorm.DB) (opts : List TxOptions)
  | commit (g : Ptr)
  | rollback (g : Ptr)
  | logError (ctx : Context) (msg : String)
  deriving DecidableEq, Repr

/-- The state a run threads through: the allocated handles, the allocated
`gorm.DB` objects and the calls made. -/
structure World where
  heap : List Gorm
  dbs : List gorm.DB
  log : List Event
  deriving DecidableEq, Repr

/-- Value carried by a Go panic. -/
abbrev PanicValue := String

/-- The run-time panic of dereferencing a nil pointer. -/
def nilDeref : PanicValue := "runtime error: invalid memory address or nil pointer dereference"

/-- How a Go call ends: it returns a value or it panics. -/
inductive Outcome (α : Type) where
  | ret (a : α)
  | panic (v : PanicValue)
  deriving DecidableEq, Repr

/-- A Go call: from the world before to its outcome and the world after. -/
abbrev Go (α : Type) := World → Outcome α × World

/-- Answers of the database, each a function of the calls made so far, and the
number of further attempts the retry budget of `backoff` leaves room for. -/
structure Backend where
  openErr : String → List Event → Option Error
  sqlDBErr : String → List Event → Option Error
  pingErr : String → List Event → Option Error
  useErr : List String → List Event → Option Error
  beginErr : gorm.DB → List Event → Option Error
  commitErr : gorm.DB → List Event → Option Error
  rollbackErr : gorm.DB → List Event → Option Error
  maxRetries : Nat

/-- Allocation of a new handle (`&Gorm{...}`): its address and the world after. -/
def alloc (G : Gorm) (w : World) : Ptr × World :=
  (w.heap.length, { w with heap := w.heap ++ [G] })

/-- Allocation of a new `gorm.DB` object: its address and the world after. -/
def allocDB (db : gorm.DB) (w : World) : DBPtr × World :=
  (w.dbs.length, { w with dbs := w.dbs ++ [db] })

/-- Method `(*gorm.DB).getInstance`: a new object for a session, the receiver
itself for the result of a chain method. -/
def gorm.DB.getInstance (p : DBPtr) : Go DBPtr := fun w =>
  match w.dbs.get? p with
  | none => (Outcome.panic nilDeref, w)
  | some db =>
    if db.clone > 0 then
      let (q, w) := allocDB db.instance w
      (Outcome.ret q, w)
    else (Outcome.ret p, w)

/-- Method `(*gorm.DB).Clauses` with one clause: the clause is added to the
statement of `getInstance()`, in place, and that `*gorm.DB` is returned. -/
def gorm.DB.Clauses (p : DBPtr) (c : Clause) : Go DBPtr := fun w =>
  match gorm.DB.getInstance p w with
  | (Outcome.panic v, w) => (Outcome.panic v, w)
  | (Outcome.ret tx, w) =>
    match w.dbs.get? tx with
    | none => (Outcome.panic nilDeref, w)
    | some d => (Outcome.ret tx, { w with dbs := w.dbs.set tx (d.AddClause c) })

/-- Method `(*Gorm).GormDB`. -/
def Gorm.GormDB (g : Ptr) : Go (Option DBPtr) := fun w =>
  match w.heap.get? g with
  | none => (Outcome.panic nilDeref, w)
  | some G => (Outcome.ret G.DB, w)

/-- Method `(*Gorm).WithContext`. -/
def Gorm.WithContext (g : Ptr) (ctx : Context) : Go Ptr := fun w =>
  match w.heap.get? g with
  | none => (Outcome.panic nilDeref, w)
  | some G =>
    match G.DB with
    | some _ => (Outcome.ret g, w)
    | none =>
      match G.conn.db with
      | none => (Outcome.panic nilDeref, w)
      | some cp =>
        match w.dbs.get? cp with
        | none => (Outcome.panic nilDeref, w)
        | some cdb =>
          let (db, w) := allocDB (cdb.WithContext ctx) w
          let (p, w) := alloc { DB := some db, conn := G.conn } w
          (Outcome.ret p, w)

/-- Method `(*Gorm).clone`. -/
def Gorm.clone (g : Ptr) : Go Ptr := fun w =>
  match w.heap.get? g with
  | none => (Outcome.panic nilDeref, w)
  | some G =>
    let (p, w) := alloc { DB := G.DB, conn := G.conn } w
    (Outcome.ret p, w)

/-- Method `(*Gorm).setDB`: the field `DB` of the receiver is overwritten. -/
def Gorm.setDB (g : Ptr) (tx : DBPtr) : Go Ptr := fun w =>
  match w.heap.get? g with
  | none => (Outcome.panic nilDeref, w)
  | some G => (Outcome.ret g, { w with heap := w.heap.set g { G with DB := some tx } })

/-- Type `Option`, a `func(g *Gorm) *Gorm`. -/
abbrev GormOption := Ptr → Go Ptr

/-- Method `(*Gorm).Options`: the loop over `opts`. -/
def Gorm.Options (g : Ptr) : List GormOption → Go Ptr
  | [] => fun w => (Outcome.ret g, w)
  | opt :: opts => fun w =>
    match opt g w with
    | (Outcome.panic v, w) => (Outcome.panic v, w)
    | (Outcome.ret g, w) => Gorm.Options g opts w

/-- Function `SetForUpdate`. -/
def SetForUpdate : GormOption := fun g w =>
  match w.heap.get? g with
  | none => (Outcome.panic nilDeref, w)
  | some G =>
    match G.DB with
    | none => (Outcome.panic nilDeref, w)
    | some db =>
      match gorm.DB.Clauses db (Clause.Locking "UPDATE") w with
      | (Outcome.panic v, w) => (Outcome.panic v, w)
      | (Outcome.ret tx, w) =>
        match Gorm.clone g w with
        | (Outcome.panic v, w) => (Outcome.panic v, w)
        | (Outcome.ret c, w) => Gorm.setDB c tx w

/-- Method `(*gorm.DB).Begin`, on the contents of the receiver: the contents
of the new `*gorm.DB` and its field `Error`. A pool that is already a
transaction cannot begin another one: gorm reports `ErrInvalidTransaction`
without reaching the database. Otherwise `BeginTx` is called on the pool and
the database answers. -/
def gorm.DB.Begin (be : Backend) (db : gorm.DB) (opts : List TxOptions) (w : World) :
    (gorm.DB × Option Error) × World :=
  if db.inTx then ((db.session, some "invalid transaction"), w)
  else
    let w1 : World := { w with log := w.log ++ [Event.beginTx db opts] }
    match be.beginErr db w.log with
    | some e => ((db.session, some e), w1)
    | none => (({ db.session with inTx := true }, none), w1)

/-- Method `(*Gorm).Begin`: the new handle, or the error of the transaction. -/
def Gorm.Begin (be : Backend) (g : Ptr) (ctx : Context) (opts : List TxOptions) :
    Go (Except Error Ptr) := fun w =>
  match Gorm.WithContext g ctx w with
  | (Outcome.panic v, w) => (Outcome.panic v, w)
  | (Outcome.ret h, w) =>
    match Gorm.GormDB h w with
    | (Outcome.panic v, w) => (Outcome.panic v, w)
    | (Outcome.ret none, w) => (Outcome.panic nilDeref, w)
    | (Outcome.ret (some dp), w) =>
      match w.dbs.get? dp with
      | none => (Outcome.panic nilDeref, w)
      | some db =>
        match gorm.DB.Begin be db opts w with
        | ((_, some e), w) => (Outcome.ret (Except.error e), w)
        | ((txdb, none), w) =>
          let (tx, w) := allocDB txdb w
          match w.heap.get? g with
          | none => (Outcome.panic nilDeref, w)
          | some G =>
            let (p, w) := alloc { DB := some tx, conn := G.conn } w
            (Outcome.ret (Except.ok p), w)

/-- Method `(*Gorm).Commit`: the call is recorded, then `g.GormDB().Commit().Error`. -/
def Gorm.Commit (be : Backend) (g : Ptr) : Go (Option Error) := fun w =>
  let w1 : World := { w with log := w.log ++ [Event.commit g] }
  match Gorm.GormDB g w with
  | (Outcome.panic v, _) => (Outcome.panic v, w1)
  | (Outcome.ret none, _) => (Outcome.panic nilDeref, w1)
  | (Outcome.ret (some dp), _) =>
    match w.dbs.get? dp with
    | none => (Outcome.panic nilDeref, w1)
    | some db => (Outcome.ret (be.commitErr db w.log), w1)

/-- Method `(*Gorm).Rollback`: the call is recorded, then `g.GormDB().Rollback().Error`. -/
def Gorm.Rollback (be : Backend) (g : Ptr) : Go (Option Error) := fun w =>
  let w1 : World := { w with log := w.log ++ [Event.rollback g] }
  match Gorm.GormDB g w with
  | (Outcome.panic v, _) => (Outcome.panic v, w1)
  | (Outcome.ret none, _) => (Outcome.panic nilDeref, w1)
  | (Outcome.ret (some dp), _) =>
    match w.dbs.get? dp with
    | none => (Outcome.panic nilDeref, w1)
    | some db => (Outcome.ret (be.rollbackErr db w.log), w1)

/-! ## config.go: opening the connections -/

/-- Method `(*Config).getDialector`: the dialector is identified by its DSN. -/
def Config.getDialector (cfg : Config) (dsn : String) : Except Error String :=
  if cfg.Driver = Postgres then Except.ok dsn
  else Except.error (notSupportDriver cfg.Driver)

/-- One run of the operation handed to `backoff.Retry`: `gorm.Open`, `db.DB()`
and `Ping`, each recorded. -/
def connectAttempt (be : Backend) (dsn : String) (w : World) : Option Error × World :=
  let w1 : World := { w with log := w.log ++ [Event.open dsn] }
  match be.openErr dsn w.log with
  | some e => (some e, w1)
  | none =>
    match be.sqlDBErr dsn w1.log with
    | some e => (some e, w1)
    | none => (be.pingErr dsn w1.log, { w1 with log := w1.log ++ [Event.ping dsn] })

/-- Loop of `backoff.Retry`: the operation is run; a failure is retried while
the back-off has not reported `Stop`, here `retries` more times. -/
def retryConnect (be : Backend) (dsn : String) : Nat → World → Option Error × World
  | 0, w => connectAttempt be dsn w
  | retries + 1, w =>
    match connectAttempt be dsn w with
    | (none, w) => (none, w)
    | (some _, w) => retryConnect be dsn retries w

/-- Method `(*Config).connectMasterDB`: the contents of the `*gorm.DB` that
`gorm.Open` made, with the pool limits set, or the error. -/
def Config.connectMasterDB (be : Backend) (cfg : Config) (w : World) :
    Except Error gorm.DB × World :=
  match cfg.getDialector cfg.Master.dsn with
  | Except.error e => (Except.error e, w)
  | Except.ok dialector =>
    match retryConnect be dialector be.maxRetries w with
    | (some e, w) => (Except.error (Sprintf "connect db failed: %v" [Arg.err e]), w)
    | (none, w) =>
      match be.sqlDBErr dialector w.log with
      | some e => (Except.error e, w)
      | none =>
        (Except.ok
          { dsn := dialector, ctx := none, inTx := false, clauses := [], replicas := [],
            maxIdleConns := cfg.MaxIdleConns, maxOpenConns := cfg.MaxOpenConns,
            connMaxLifetimeSec := cfg.ConnMaxLifeTimeSec, clone := 1 }, w)

/-- The loop of `connecSlaveDB` that collects one dialector per replica. -/
def Config.slaveDialectors (cfg : Config) : List ConnConfig → Except Error (List String)
  | [] => Except.ok []
  | cc :: rest =>
    match cfg.getDialector cc.dsn with
    | Except.error e => Except.error e
    | Except.ok d =>
      match Config.slaveDialectors cfg rest with
      | Except.error e => Except.error e
      | Except.ok ds => Except.ok (d :: ds)

/-- Method `(*Config).connecSlaveDB`: the `*gorm.DB` with the replicas
registered, or the error. -/
def Config.connecSlaveDB (be : Backend) (cfg : Config) (db : gorm.DB) (w : World) :
    Except Error gorm.DB × World :=
  match cfg.slaveDialectors cfg.Slave with
  | Except.error e => (Except.error e, w)
  | Except.ok dialectors =>
    let w1 : World := { w with log := w.log ++ [Event.use dialectors] }
    match be.useErr dialectors w.log with
    | some e => (Except.error e, w1)
    | none => (Except.ok { db with replicas := dialectors }, w1)

/-- Method `(*Config).newGormDB`: the receiver after the call together with
the connection, or the error. -/
def Config.newGormDB (be : Backend) (cfg : Config) (w : World) :
    Except Error (Config × gorm.DB) × World :=
  match cfg.setConnectionInfo with
  | Except.error e => (Except.error e, w)
  | Except.ok cfg =>
    match cfg.connectMasterDB be w with
    | (Except.error e, w) => (Except.error e, w)
    | (Except.ok db, w) =>
      if cfg.Slave.length > 0 then
        match cfg.connecSlaveDB be db w with
        | (Except.error e, w) => (Except.error e, w)
        | (Except.ok db, w) => (Except.ok (cfg, db), w)
      else (Except.ok (cfg, db), w)

/-- Function `New`: the address of the new handle, or the error. -/
def New (be : Backend) (cfg : Config) (w : World) : Except Error Ptr × World :=
  match cfg.clone with
  | Except.error e => (Except.error e, w)
  | Except.ok config =>
    match config.newGormDB be w with
    | (Except.error e, w) => (Except.error e, w)
    | (Except.ok (config, db), w) =>
      let (dp, w) := allocDB db w
      let conn : connection := { db := some dp, cfg := some config }
      let (p, w) := alloc { DB := none, conn := conn } w
      (Except.ok p, w)

/-! ## examples/repolayer/repository/repo.go -/

/-- Struct `repo`. -/
structure repo where
  db : Ptr
  deriving DecidableEq, Repr

/-- The closure handed to `Transaction`: it receives `txRepo`, may do anything
to the world, and returns an error (or nil) or panics. -/
abbrev TxClosure := repo → Go (Option Error)

/-- The variables of `Transaction` that its deferred function reads. -/
structure TxFrame where
  panicked : Bool
  err : Option Error
  deriving DecidableEq, Repr

/-- The deferred function of `Transaction`. -/
def Transaction.deferred (be : Backend) (ctx : Context) (tx : Ptr) (f : TxFrame) :
    Go Unit := fun w =>
  if f.panicked || f.err ≠ none then
    match Gorm.Rollback be tx w with
    | (Outcome.panic v, w) => (Outcome.panic v, w)
    | (Outcome.ret (some e), w) =>
      (Outcome.ret (),
        { w with log := w.log ++ [Event.logError ctx (Sprintf "rollback failed: %+v" [Arg.err e])] })
    | (Outcome.ret none, w) => (Outcome.ret (), w)
  else (Outcome.ret (), w)

/-- The statements of `Transaction` after the `defer`: how they end, and the
variables at that point. -/
def Transaction.body (be : Backend) (tx : Ptr) (fc : TxClosure) (f : TxFrame) (w : World) :
    Outcome Unit × TxFrame × World :=
  let txRepo : repo := { db := tx }
  match fc txRepo w with
  | (Outcome.panic v, w) => (Outcome.panic v, f, w)
  | (Outcome.ret err, w) =>
    let f := { f with err := err }
    if f.err = none then
      match Gorm.Commit be tx w with
      | (Outcome.panic v, w) => (Outcome.panic v, f, w)
      | (Outcome.ret err, w) => (Outcome.ret (), { panicked := false, err := err }, w)
    else (Outcome.ret (), { f with panicked := false }, w)

/-- Method `(*repo).Transaction`. The deferred function runs on every exit after
the `defer`, normal or panicking; it does not recover, so a panic goes on to
the caller, and a panic of the deferred function itself replaces the exit. -/
def repo.Transaction (be : Backend) (r : repo) (ctx : Context) (fc : TxClosure) :
    Go (Option Error) := fun w =>
  let f : TxFrame := { panicked := true, err := none }
  match Gorm.Begin be r.db ctx [] w with
  | (Outcome.panic v, w) => (Outcome.panic v, w)
  | (Outcome.ret (Except.error e), w) => (Outcome.ret (some e), w)
  | (Outcome.ret (Except.ok tx), w) =>
    match Transaction.body be tx fc f w with
    | (exit, f, w) =>
      match Transaction.deferred be ctx tx f w with
      | (Outcome.panic v, w) => (Outcome.panic v, w)
      | (Outcome.ret (), w) =>
        match exit with
        | Outcome.panic v => (Outcome.panic v, w)
        | Outcome.ret () => (Outcome.ret f.err, w)

/-! ## examples/repolayer/repository/user_repo.go -/

/-- The `*gorm.DB` on which `GetUser`, and likewise every other method of
`UserRepo`, builds its statement: `r.db.WithContext(ctx).Options(opts...).GormDB()`. -/
def repo.statementDB (r : repo) (ctx : Context) (opts : List GormOption) :
    Go (Option DBPtr) := fun w =>
  match Gorm.WithContext r.db ctx w with
  | (Outcome.panic v, w) => (Outcome.panic v, w)
  | (Outcome.ret g, w) =>
    match Gorm.Options g opts w with
    | (Outcome.panic v, w) => (Outcome.panic v, w)
    | (Outcome.ret g, w) => Gorm.GormDB g w

/-! ## Occurrences of a key in a connection string -/

/-- Number of positions of `s` at which `pat` starts. -/
def countOccAux (pat : List Char) : List Char → Nat
  | [] => if pat.isPrefixOf [] then 1 else 0
  | c :: cs => (if pat.isPrefixOf (c :: cs) then 1 else 0) + countOccAux pat cs

/-- Number of occurrences of the substring `pat` in `s`. -/
def countOcc (pat s : String) : Nat :=
  countOccAux pat.data s.data

/-! ## Vocabulary of the claims about handles and transactions -/

/-- One step of the left-to-right fold over options: an option is applied to
the handle returned so far; a panic ends the fold. -/
def optionsStep (acc : Outcome Ptr × World) (opt : GormOption) : Outcome Ptr × World :=
  match acc with
  | (Outcome.panic v, w) => (Outcome.panic v, w)
  | (Outcome.ret g, w) => opt g w

/-- Number of `Commit` calls made on the handle `tx`. -/
def commitCalls (tx : Ptr) (log : List Event) : Nat :=
  log.count (Event.commit tx)

/-- Number of `Rollback` calls made on the handle `tx`. -/
def rollbackCalls (tx : Ptr) (log : List Event) : Nat :=
  log.count (Event.rollback tx)

/-- Number of calls that terminate the transaction of the handle `tx`. -/
def termCalls (tx : Ptr) (log : List Event) : Nat :=
  commitCalls tx log + rollbackCalls tx log

/-- What the deferred function logs for the result of `Rollback`. -/
def rollbackLog (ctx : Context) : Option Error → List Event
  | none => []
  | some e => [Event.logError ctx (Sprintf "rollback failed: %+v" [Arg.err e])]

/-- The calls `Transaction` makes after the closure, by exit path: `Commit`
alone when the closure returns nil and the commit succeeds, `Commit` then
`Rollback` when the commit fails, `Rollback` alone when the closure returns an
error or panics. -/
def exitCalls (be : Backend) (ctx : Context) (tx : Ptr) (db : gorm.DB) (log : List Event) :
    Outcome (Option Error) → List Event
  | Outcome.ret none =>
    match be.commitErr db log with
    | none => [Event.commit tx]
    | some _ =>
      Event.commit tx :: Event.rollback tx ::
        rollbackLog ctx (be.rollbackErr db (log ++ [Event.commit tx]))
  | _ => Event.rollback tx :: rollbackLog ctx (be.rollbackErr db log)

/-- The keys and the TLS modes that a connection string is made of. -/
def dsnKeys : List String :=
  ["user=", "password=", "host=", "port=", "dbname=", "sslmode=require", "sslmode=disable"]

/-- A field value is key-free when none of the keys and TLS modes occurs in it. -/
def keyFree (s : String) : Bool :=
  dsnKeys.all fun pat => countOcc pat s == 0

/-- Number of transactions begun on the database (`BeginTx` calls). -/
def beginCalls (log : List Event) : Nat :=
  log.countP (fun e => match e with
    | Event.beginTx _ _ => true
    | _ => false)

/-- A closure that starts a nested transaction through the `txRepo` it
receives, `txRepo.Transaction(ctx, inner)`, and returns its result. -/
def nestedClosure (be : Backend) (ctx : Context) (inner : TxClosure) : TxClosure :=
  fun txRepo => repo.Transaction be txRepo ctx inner

/-! ## Sample inputs -/

/-- A primary target with a search path and TLS. -/
def sampleConn : ConnConfig :=
  { Host := "db.local", Port := 5432, Username := "app", Password := "secret",
    DBName := "shop", SearchPath := " public ", SSLEnable := true, dsn := "" }

/-- A target whose user name contains a key and a TLS mode. -/
def sampleConnInjected : ConnConfig :=
  { Host := "db.local", Port := 5432, Username := "a user=b sslmode=require", Password := "secret",
    DBName := "shop", SearchPath := "", SSLEnable := false, dsn := "" }

/-- A logger configuration. -/
def sampleLog : LogConfig :=
  { LogLevel := 4, SlowThresholdMs := 200, IgnoreRecordNotFoundError := true,
    Colorful := false, slowThreshold := 0 }

/-- A configuration with one pool field unset, one negative and one set. -/
def sampleConfig : Config :=
  { Driver := "postgres", MaxIdleConns := 0, MaxOpenConns := -5, ConnMaxLifeTimeSec := 7,
    Master := sampleConn, Slave := [], Log := sampleLog }

/-- A configuration that selects a driver wgorm does not support. -/
def sampleConfigMysql : Config :=
  { sampleConfig with Driver := "mysql" }

/-- A database that accepts every call at once. -/
def sampleBackend : Backend :=
  { openErr := fun _ _ => none, sqlDBErr := fun _ _ => none, pingErr := fun _ _ => none,
    useErr := fun _ _ => none, beginErr := fun _ _ => none, commitErr := fun _ _ => none,
    rollbackErr := fun _ _ => none, maxRetries := 3 }

/-- A target whose password ends in equals signs, as base64 text does. -/
def sampleConnBase64 : ConnConfig :=
  { Host := "db.local", Port := 5432, Username := "app", Password := "c2VjcmV0PQ==",
    DBName := "shop", SearchPath := "a=b", SSLEnable := false, dsn := "" }

/-- The world before anything happened. -/
def emptyWorld : World :=
  { heap := [], dbs := [], log := [] }

/-- The connection `New` stores for the sample configuration. -/
def sampleDB : gorm.DB :=
  { dsn := "user=app", ctx := none, inTx := false, clauses := [], replicas := [],
    maxIdleConns := 50, maxOpenConns := 100, connMaxLifetimeSec := 3600, clone := 1 }

/-- A world with the handle that `New` returns at address 0 and a handle bound
to context 7 at address 1; their `*gorm.DB` are the objects 0 and 1. -/
def sampleWorld : World :=
  { heap := [{ DB := none, conn := { db := some 0, cfg := none } },
             { DB := some 1, conn := { db := some 0, cfg := none } }],
    dbs := [sampleDB, sampleDB.WithContext 7],
    log := [] }

/-- A `*gorm.DB` as a chain method returns it (`clone` 0), with one clause. -/
def chainedDB : gorm.DB :=
  { sampleDB with ctx := some 7, clauses := [Clause.OnConflict], clone := 0 }

/-- A world with one handle, `&Gorm{DB: db}`, whose `DB` is the chained
`*gorm.DB` at address 0. -/
def chainedWorld : World :=
  { heap := [{ DB := some 0, conn := { db := none, cfg := none } }],
    dbs := [chainedDB],
    log := [] }

/-- A world with one handle, the zero value `&Gorm{}`. -/
def zeroWorld : World :=
  { heap := [{ DB := none, conn := { db := none, cfg := none } }],
    dbs := [],
    log := [] }

/-- A database whose commits fail, and whose other calls succeed. -/
def sampleBackendCommitFails : Backend :=
  { sampleBackend with commitErr := fun _ _ => some "commit failed" }

/-- A database whose rollbacks fail, and whose other calls succeed. -/
def sampleBackendRollbackFails : Backend :=
  { sampleBackend with rollbackErr := fun _ _ => some "rollback broke" }

/-- A closure that returns nil. -/
def fcNil : TxClosure := fun _ w => (Outcome.ret none, w)

/-- A closure that returns an error. -/
def fcErr : TxClosure := fun _ w => (Outcome.ret (some "boom"), w)

/-- A closure that panics. -/
def fcPanic : TxClosure := fun _ w => (Outcome.panic "kaboom", w)

/-! ## Facts about the helpers -/

/-- The digits printed for an integer are those of the standard decimal rendering. -/
theorem fmtInt_eq_toString (n : Int) : String.mk (fmtInt n) = toString n := by
  cases n with
  | ofNat m =>
    have hn : ¬ ((Int.ofNat m) < 0) := by simp
    simp only [fmtInt, hn, if_false]
    rfl
  | negSucc m =>
    have hn : (Int.negSucc m) < 0 := Int.negSucc_lt_zero m
    simp only [fmtInt, hn, if_true]
    rfl

/-- A string is non-blank after trimming exactly when it has a character that
is not white space. -/
theorem trimSpace_ne_empty_iff (s : String) :
    TrimSpace s ≠ "" ↔ ∃ c ∈ s.data, isSpace c = false := by
  have h1 : TrimSpace s = "" ↔ (s.data.dropWhile isSpace) = [] := by
    unfold TrimSpace
    constructor
    · intro h
      have h2 : ((s.data.dropWhile isSpace).reverse.dropWhile isSpace).reverse = [] := by
        have := congrArg String.data h
        simpa using this
      rw [List.reverse_eq_nil_iff, List.dropWhile_eq_nil_iff] at h2
      have h3 : List.dropWhile isSpace (List.dropWhile isSpace s.data) = [] := by
        rw [List.dropWhile_eq_nil_iff]
        intro x hx
        exact h2 x (List.mem_reverse.mpr hx)
      rwa [List.dropWhile_idempotent] at h3
    · intro h
      rw [h]
      rfl
  rw [Ne, h1, List.dropWhile_eq_nil_iff]
  push_neg
  simp

/-! ## Connection strings -/

/-- C1: `setPostgresDSN` sets `dsn` to
`user=<Username> password=<Password> host=<Host> port=<Port in decimal> dbname=<DBName>`,
then ` sslmode=require` when `SSLEnable` is set and ` sslmode=disable` otherwise,
then ` search_path=<SearchPath>` (untrimmed) exactly when `SearchPath` is
non-blank after trimming, that is when it has a character that is not white
space; every other field of the receiver keeps its value. -/
theorem setPostgresDSN_spec (cc : ConnConfig) :
    cc.setPostgresDSN =
      { cc with dsn :=
          "user=" ++ cc.Username ++ " password=" ++ cc.Password ++ " host=" ++ cc.Host
            ++ " port=" ++ toString cc.Port ++ " dbname=" ++ cc.DBName
            ++ (if cc.SSLEnable then " sslmode=require" else " sslmode=disable")
            ++ (if TrimSpace cc.SearchPath ≠ "" then " search_path=" ++ cc.SearchPath else "") }
    ∧ (TrimSpace cc.SearchPath ≠ "" ↔ ∃ c ∈ cc.SearchPath.data, isSpace c = false) := by
  refine ⟨?_, trimSpace_ne_empty_iff cc.SearchPath⟩
  rw [← fmtInt_eq_toString]
  simp only [ConnConfig.setPostgresDSN, ConnConfig.mk.injEq, true_and]
  apply String.ext
  by_cases hs : cc.SSLEnable = true <;> by_cases ht : TrimSpace cc.SearchPath = "" <;>
    simp [hs, ht, Sprintf, sprintfAux, fmtArg]

/-! ## Keys of a connection string -/

/-- No digit character is the equals sign. -/
theorem digitChar_ne_eq (n : Nat) : Nat.digitChar (n % 10) ≠ '=' := by
  have h : n % 10 < 10 := Nat.mod_lt _ (by decide)
  generalize n % 10 = d at h
  interval_cases d <;> decide

/-- The digits of a number contain no equals sign. -/
theorem toDigitsCore_no_eq (fuel : Nat) : ∀ (n : Nat) (acc : List Char),
    '=' ∉ acc → '=' ∉ Nat.toDigitsCore 10 fuel n acc := by
  induction fuel with
  | zero => intro n acc h; simpa [Nat.toDigitsCore] using h
  | succ f ih =>
    intro n acc h
    have hd : '=' ∉ Nat.digitChar (n % 10) :: acc := by
      intro hm
      rcases List.mem_cons.mp hm with h1 | h1
      · exact digitChar_ne_eq _ h1.symm
      · exact h h1
    simp only [Nat.toDigitsCore]
    split
    · exact hd
    · exact ih _ _ hd

/-- The decimal rendering of an integer contains no equals sign. -/
theorem fmtInt_no_eq (n : Int) : '=' ∉ fmtInt n := by
  unfold fmtInt
  split
  · intro hm
    rcases List.mem_cons.mp hm with h1 | h1
    · exact absurd h1 (by decide)
    · exact toDigitsCore_no_eq _ _ [] (by simp) h1
  · exact toDigitsCore_no_eq _ _ [] (by simp)

/-- A pattern with an equals sign does not occur in a text without one. -/
theorem countOccAux_no_eq (k r : List Char) : ∀ xs : List Char, '=' ∉ xs →
    countOccAux (k ++ '=' :: r) xs = 0 := by
  intro xs
  induction xs with
  | nil =>
    intro _
    cases k <;> simp [countOccAux, List.isPrefixOf]
  | cons x xs ih =>
    intro h
    have hx : '=' ∉ xs := fun hm => h (List.mem_cons_of_mem _ hm)
    have hp : ¬ (k ++ '=' :: r) <+: (x :: xs) := by
      intro hpre
      exact h (hpre.subset (by simp))
    simp only [countOccAux, ih hx, List.isPrefixOf_iff_prefix, hp]
    simp

/-- A text without a space occurs in `A B`, cut at that space, as often as in
`A` and in `B` together: no occurrence runs over the space. -/
theorem countOccAux_cut (pat : List Char) (hp : pat ≠ []) (hs : ' ' ∉ pat) (B : List Char) :
    ∀ A : List Char,
    countOccAux pat (A ++ ' ' :: B) = countOccAux pat A + countOccAux pat B := by
  have hnil : pat.isPrefixOf [] = false := by
    cases pat with
    | nil => exact absurd rfl hp
    | cons a t => rfl
  have hpre : ∀ X : List Char, pat <+: X ++ ' ' :: B ↔ pat <+: X := by
    intro X
    constructor
    · intro h
      rcases List.prefix_or_prefix_of_prefix h (List.prefix_append X (' ' :: B)) with h1 | h1
      · exact h1
      · obtain ⟨t, ht⟩ := h1
        rw [← ht] at h
        have h2 : t <+: ' ' :: B := (List.prefix_append_right_inj X).mp h
        cases t with
        | nil => rw [← ht]; simp
        | cons c t =>
          have hc : c = ' ' := (List.cons_prefix_cons.mp h2).1
          exact absurd (by rw [← ht, hc]; simp) hs
    · intro h
      exact h.trans (List.prefix_append X (' ' :: B))
  intro A
  induction A with
  | nil =>
    have h0 : ¬ pat <+: ' ' :: B := by
      intro h
      have := (hpre []).mp h
      exact hp (List.prefix_nil.mp this)
    simp [countOccAux, hnil, List.isPrefixOf_iff_prefix, h0]
  | cons a A ih =>
    show countOccAux pat (a :: (A ++ ' ' :: B)) = _
    rw [countOccAux, ih, countOccAux]
    have := hpre (a :: A)
    simp only [List.cons_append] at this
    simp only [List.isPrefixOf_iff_prefix, this]
    omega

/-- The connection string, cut at the spaces that `setPostgresDSN` writes
before its keys. -/
theorem dsn_chunks (cc : ConnConfig) :
    cc.setPostgresDSN.dsn.data =
      ("user=".data ++ cc.Username.data) ++ ' ' ::
      (("password=".data ++ cc.Password.data) ++ ' ' ::
      (("host=".data ++ cc.Host.data) ++ ' ' ::
      (("port=".data ++ fmtInt cc.Port) ++ ' ' ::
      (("dbname=".data ++ cc.DBName.data) ++ ' ' ::
      (if TrimSpace cc.SearchPath ≠ "" then
        (if cc.SSLEnable then "sslmode=require".data else "sslmode=disable".data) ++ ' ' ::
          ("search_path=".data ++ cc.SearchPath.data)
       else (if cc.SSLEnable then "sslmode=require".data else "sslmode=disable".data)))))) := by
  by_cases hs : cc.SSLEnable = true <;> by_cases ht : TrimSpace cc.SearchPath = "" <;>
    simp [ConnConfig.setPostgresDSN, hs, ht, Sprintf, sprintfAux, fmtArg]

/-- Occurrences of a space-free text in the connection string, chunk by chunk. -/
theorem countOccAux_dsn (cc : ConnConfig) (pat : List Char) (hp : pat ≠ []) (hs : ' ' ∉ pat) :
    countOccAux pat cc.setPostgresDSN.dsn.data =
      countOccAux pat ("user=".data ++ cc.Username.data) +
      (countOccAux pat ("password=".data ++ cc.Password.data) +
      (countOccAux pat ("host=".data ++ cc.Host.data) +
      (countOccAux pat ("port=".data ++ fmtInt cc.Port) +
      (countOccAux pat ("dbname=".data ++ cc.DBName.data) +
      (countOccAux pat (if cc.SSLEnable then "sslmode=require".data else "sslmode=disable".data) +
       (if TrimSpace cc.SearchPath ≠ "" then
          countOccAux pat ("search_path=".data ++ cc.SearchPath.data) else 0)))))) := by
  rw [dsn_chunks]
  simp only [countOccAux_cut pat hp hs]
  by_cases ht : TrimSpace cc.SearchPath = ""
  · simp [ht]
  · simp [ht, countOccAux_cut pat hp hs]

/-- What key-freeness says, key by key. -/
theorem keyFree_iff (s : String) :
    keyFree s = true ↔
      countOccAux "user=".data s.data = 0 ∧ countOccAux "password=".data s.data = 0 ∧
      countOccAux "host=".data s.data = 0 ∧ countOccAux "port=".data s.data = 0 ∧
      countOccAux "dbname=".data s.data = 0 ∧
      countOccAux "sslmode=require".data s.data = 0 ∧
      countOccAux "sslmode=disable".data s.data = 0 := by
  simp [keyFree, dsnKeys, countOcc]

/-- The decimal rendering of the port contains none of the keys and modes. -/
theorem fmtInt_keyFree (n : Int) :
    countOccAux "user=".data (fmtInt n) = 0 ∧ countOccAux "password=".data (fmtInt n) = 0 ∧
    countOccAux "host=".data (fmtInt n) = 0 ∧ countOccAux "port=".data (fmtInt n) = 0 ∧
    countOccAux "dbname=".data (fmtInt n) = 0 ∧
    countOccAux "sslmode=require".data (fmtInt n) = 0 ∧
    countOccAux "sslmode=disable".data (fmtInt n) = 0 :=
  ⟨countOccAux_no_eq "user".data [] _ (fmtInt_no_eq n),
   countOccAux_no_eq "password".data [] _ (fmtInt_no_eq n),
   countOccAux_no_eq "host".data [] _ (fmtInt_no_eq n),
   countOccAux_no_eq "port".data [] _ (fmtInt_no_eq n),
   countOccAux_no_eq "dbname".data [] _ (fmtInt_no_eq n),
   countOccAux_no_eq "sslmode".data "require".data _ (fmtInt_no_eq n),
   countOccAux_no_eq "sslmode".data "disable".data _ (fmtInt_no_eq n)⟩

/-- C2, as the code has it: when none of `Username`, `Password`, `Host`,
`DBName` and `SearchPath` contains one of the texts `user=`, `password=`,
`host=`, `port=`, `dbname=`, `sslmode=require`, `sslmode=disable` (any other
content, equals signs included, is allowed), each of the keys `user=`,
`password=`, `host=`, `port=`, `dbname=` occurs exactly once in the connection
string that `setPostgresDSN` generates, and exactly one of `sslmode=require`
and `sslmode=disable` occurs, once: the first when `SSLEnable` is set, the
second otherwise. -/
theorem setPostgresDSN_keys_once (cc : ConnConfig)
    (hU : keyFree cc.Username = true) (hP : keyFree cc.Password = true)
    (hH : keyFree cc.Host = true) (hD : keyFree cc.DBName = true)
    (hS : keyFree cc.SearchPath = true) :
    countOcc "user=" cc.setPostgresDSN.dsn = 1 ∧
    countOcc "password=" cc.setPostgresDSN.dsn = 1 ∧
    countOcc "host=" cc.setPostgresDSN.dsn = 1 ∧
    countOcc "port=" cc.setPostgresDSN.dsn = 1 ∧
    countOcc "dbname=" cc.setPostgresDSN.dsn = 1 ∧
    countOcc "sslmode=require" cc.setPostgresDSN.dsn = (if cc.SSLEnable then 1 else 0) ∧
    countOcc "sslmode=disable" cc.setPostgresDSN.dsn = (if cc.SSLEnable then 0 else 1) := by
  rw [keyFree_iff] at hU hP hH hD hS
  have hN := fmtInt_keyFree cc.Port
  refine ⟨?_, ?_, ?_, ?_, ?_, ?_, ?_⟩ <;>
    rw [countOcc, countOccAux_dsn cc _ (by decide) (by decide)] <;>
    by_cases hs : cc.SSLEnable = true <;> by_cases ht : TrimSpace cc.SearchPath = "" <;>
    simp +decide [hs, ht, countOccAux, hU, hP, hH, hD, hS, hN]

/-- Witness of C2 as the code has it: a password that ends in equals signs. -/
theorem setPostgresDSN_keys_once_witness :
    countOcc "user=" sampleConnBase64.setPostgresDSN.dsn = 1 ∧
    countOcc "password=" sampleConnBase64.setPostgresDSN.dsn = 1 ∧
    countOcc "host=" sampleConnBase64.setPostgresDSN.dsn = 1 ∧
    countOcc "port=" sampleConnBase64.setPostgresDSN.dsn = 1 ∧
    countOcc "dbname=" sampleConnBase64.setPostgresDSN.dsn = 1 ∧
    countOcc "sslmode=require" sampleConnBase64.setPostgresDSN.dsn =
      (if sampleConnBase64.SSLEnable then 1 else 0) ∧
    countOcc "sslmode=disable" sampleConnBase64.setPostgresDSN.dsn =
      (if sampleConnBase64.SSLEnable then 0 else 1) :=
  setPostgresDSN_keys_once sampleConnBase64 (by decide) (by decide) (by decide) (by decide)
    (by decide)

/-- The restriction of C2 is needed field by field: whatever the fields hold,
the occurrences of a key in the connection string are the one that
`setPostgresDSN` writes plus those inside the field values. -/
theorem setPostgresDSN_user_count (cc : ConnConfig) :
    countOcc "user=" cc.setPostgresDSN.dsn =
      1 + countOcc "user=" cc.Username + countOcc "user=" cc.Password +
        countOcc "user=" cc.Host + countOcc "user=" cc.DBName +
        (if TrimSpace cc.SearchPath ≠ "" then countOcc "user=" cc.SearchPath else 0) := by
  have hN := fmtInt_keyFree cc.Port
  rw [countOcc, countOccAux_dsn cc _ (by decide) (by decide)]
  by_cases hs : cc.SSLEnable = true <;> by_cases ht : TrimSpace cc.SearchPath = "" <;>
    simp +decide [hs, ht, countOcc, countOccAux, hN] <;> omega

/-- Counterexample to C2: a user name that itself contains `user=` and
`sslmode=require`, with TLS off. The key `user=` occurs twice in the generated
connection string, and both TLS modes occur. -/
theorem setPostgresDSN_injected_keys :
    sampleConnInjected.setPostgresDSN.dsn =
      "user=a user=b sslmode=require password=secret host=db.local port=5432 dbname=shop sslmode=disable" ∧
    countOcc "user=" sampleConnInjected.setPostgresDSN.dsn = 2 ∧
    countOcc "sslmode=require" sampleConnInjected.setPostgresDSN.dsn = 1 ∧
    countOcc "sslmode=disable" sampleConnInjected.setPostgresDSN.dsn = 1 := by
  refine ⟨by decide, by decide, by decide, by decide⟩

/-! ## Pool defaults and driver validation -/

/-- C3: with the supported driver `setConnectionInfo` succeeds, and each of
`MaxIdleConns`, `MaxOpenConns`, `ConnMaxLifeTimeSec` is its default (50, 100,
3600) if it was 0 and its previous value otherwise, negative values included. -/
theorem setConnectionInfo_pool_defaults (cfg : Config) (h : cfg.Driver = Postgres) :
    ∃ cfg', cfg.setConnectionInfo = Except.ok cfg' ∧
      cfg'.MaxIdleConns = (if cfg.MaxIdleConns = 0 then 50 else cfg.MaxIdleConns) ∧
      cfg'.MaxOpenConns = (if cfg.MaxOpenConns = 0 then 100 else cfg.MaxOpenConns) ∧
      cfg'.ConnMaxLifeTimeSec =
        (if cfg.ConnMaxLifeTimeSec = 0 then 3600 else cfg.ConnMaxLifeTimeSec) := by
  simp only [Config.setConnectionInfo, Config.setDSN, h, if_true]
  refine ⟨_, rfl, ?_⟩
  by_cases h1 : cfg.MaxIdleConns = 0 <;> by_cases h2 : cfg.MaxOpenConns = 0 <;>
    by_cases h3 : cfg.ConnMaxLifeTimeSec = 0 <;> simp [h1, h2, h3]

/-- Witness of C3: the sample configuration (0 idle, -5 open, 7 s lifetime). -/
theorem setConnectionInfo_pool_defaults_witness :
    sampleConfig.Driver = Postgres ∧
    ∃ cfg', sampleConfig.setConnectionInfo = Except.ok cfg' ∧
      cfg'.MaxIdleConns = (if sampleConfig.MaxIdleConns = 0 then 50 else sampleConfig.MaxIdleConns) ∧
      cfg'.MaxOpenConns = (if sampleConfig.MaxOpenConns = 0 then 100 else sampleConfig.MaxOpenConns) ∧
      cfg'.ConnMaxLifeTimeSec =
        (if sampleConfig.ConnMaxLifeTimeSec = 0 then 3600 else sampleConfig.ConnMaxLifeTimeSec) :=
  ⟨by decide, setConnectionInfo_pool_defaults sampleConfig (by decide)⟩

/-- C4: for a driver other than `postgres` (the empty one included) `clone`
returns the error, and `New` returns that same error and no handle with the
world untouched: no handle allocated and no call made to the database, so the
connection attempts and their retries are never reached. For `postgres`,
`clone` returns no error and a configuration equal to its input. -/
theorem New_unsupported_driver (be : Backend) (cfg : Config) (w : World) :
    (cfg.Driver ≠ Postgres →
      cfg.clone = Except.error (notSupportDriver cfg.Driver) ∧
      New be cfg w = (Except.error (notSupportDriver cfg.Driver), w)) ∧
    (cfg.Driver = Postgres → cfg.clone = Except.ok cfg) := by
  constructor
  · intro h
    have hc : cfg.clone = Except.error (notSupportDriver cfg.Driver) := by
      simp [Config.clone, h]
    exact ⟨hc, by simp [New, hc]⟩
  · intro h
    simp [Config.clone, h]

/-- Witness of C4: `mysql` is rejected before anything happens, and the sample
`postgres` configuration is cloned. -/
theorem New_unsupported_driver_witness :
    (sampleConfigMysql.clone = Except.error "not support driver:mysql" ∧
      New sampleBackend sampleConfigMysql emptyWorld =
        (Except.error "not support driver:mysql", emptyWorld)) ∧
    sampleConfig.clone = Except.ok sampleConfig :=
  ⟨(New_unsupported_driver sampleBackend sampleConfigMysql emptyWorld).1 (by decide),
   (New_unsupported_driver sampleBackend sampleConfig emptyWorld).2 (by decide)⟩

/-- Every connection attempt starts by recording `gorm.Open`. -/
theorem connectAttempt_log (be : Backend) (dsn : String) (w : World) :
    ∃ rest, (connectAttempt be dsn w).2.log = w.log ++ Event.open dsn :: rest := by
  unfold connectAttempt
  cases be.openErr dsn w.log with
  | some e => exact ⟨[], rfl⟩
  | none =>
    cases hq : be.sqlDBErr dsn (w.log ++ [Event.open dsn]) with
    | some e => exact ⟨[], by simp [hq]⟩
    | none => exact ⟨[Event.ping dsn], by simp [hq]⟩

/-- The retry loop makes at least one attempt. -/
theorem retryConnect_log (be : Backend) (dsn : String) (n : Nat) (w : World) :
    ∃ rest, (retryConnect be dsn n w).2.log = w.log ++ Event.open dsn :: rest := by
  induction n generalizing w with
  | zero => exact connectAttempt_log be dsn w
  | succ n ih =>
    obtain ⟨rest, hr⟩ := connectAttempt_log be dsn w
    unfold retryConnect
    rcases hc : connectAttempt be dsn w with ⟨o, w1⟩
    rw [hc] at hr
    cases o with
    | none => exact ⟨rest, hr⟩
    | some e =>
      obtain ⟨rest2, hr2⟩ := ih w1
      refine ⟨rest ++ Event.open dsn :: rest2, ?_⟩
      simp only [hr2]
      simp only at hr
      rw [hr]
      simp

/-- With the supported driver `connectMasterDB` starts with `gorm.Open` on the
connection string of the primary. -/
theorem connectMasterDB_log (be : Backend) (cfg : Config) (w : World)
    (h : cfg.Driver = Postgres) :
    ∃ rest, (cfg.connectMasterDB be w).2.log = w.log ++ Event.open cfg.Master.dsn :: rest := by
  obtain ⟨rest, hr⟩ := retryConnect_log be cfg.Master.dsn be.maxRetries w
  simp only [Config.connectMasterDB, Config.getDialector, h, if_true]
  rcases hc : retryConnect be cfg.Master.dsn be.maxRetries w with ⟨o, w1⟩
  rw [hc] at hr
  cases o with
  | some e => exact ⟨rest, hr⟩
  | none =>
    cases hq : be.sqlDBErr cfg.Master.dsn w1.log with
    | some e => exact ⟨rest, by simpa [hq] using hr⟩
    | none => exact ⟨rest, by simpa [hq] using hr⟩

/-- Registering the replicas only adds calls. -/
theorem connecSlaveDB_log (be : Backend) (cfg : Config) (db : gorm.DB) (w : World) :
    ∃ rest, (cfg.connecSlaveDB be db w).2.log = w.log ++ rest := by
  unfold Config.connecSlaveDB
  cases cfg.slaveDialectors cfg.Slave with
  | error e => exact ⟨[], by simp⟩
  | ok ds =>
    cases hu : be.useErr ds w.log with
    | some e => exact ⟨[Event.use ds], by simp [hu]⟩
    | none => exact ⟨[Event.use ds], by simp [hu]⟩

/-- With the supported driver `New` does reach the database: its first call
is `gorm.Open` on the connection string of the primary. -/
theorem New_postgres_reaches_database (be : Backend) (cfg : Config) (w : World)
    (h : cfg.Driver = Postgres) :
    ∃ rest, (New be cfg w).2.log =
      w.log ++ Event.open cfg.Master.setPostgresDSN.dsn :: rest := by
  have hclone : cfg.clone = Except.ok cfg := by simp [Config.clone, h]
  obtain ⟨cfg1, hset, hdrv, hmaster⟩ : ∃ cfg1, cfg.setConnectionInfo = Except.ok cfg1 ∧
      cfg1.Driver = Postgres ∧ cfg1.Master = cfg.Master.setPostgresDSN := by
    simp only [Config.setConnectionInfo, Config.setDSN, h, if_true]
    refine ⟨_, rfl, ?_⟩
    by_cases h1 : cfg.MaxIdleConns = 0 <;> by_cases h2 : cfg.MaxOpenConns = 0 <;>
      by_cases h3 : cfg.ConnMaxLifeTimeSec = 0 <;> simp [h1, h2, h3, h]
  obtain ⟨rest, hr⟩ := connectMasterDB_log be cfg1 w hdrv
  rw [hmaster] at hr
  simp only [New, hclone, Config.newGormDB, hset]
  rcases hc : cfg1.connectMasterDB be w with ⟨o, w1⟩
  rw [hc] at hr
  cases o with
  | error e => exact ⟨rest, hr⟩
  | ok db =>
    by_cases hl : cfg1.Slave.length > 0
    · obtain ⟨rest2, hr2⟩ := connecSlaveDB_log be cfg1 db w1
      rcases hs : cfg1.connecSlaveDB be db w1 with ⟨o2, w2⟩
      rw [hs] at hr2
      simp only at hr hr2
      cases o2 with
      | error e => exact ⟨rest ++ rest2, by simp [hl, hs, hr2, hr]⟩
      | ok db2 => exact ⟨rest ++ rest2, by simp [hl, hs, hr2, hr, alloc, allocDB]⟩
    · exact ⟨rest, by simpa [hl, alloc, allocDB] using hr⟩

/-! ## Options and the locking modifier -/

/-- Once an option has panicked, the rest of the fold keeps the panic. -/
theorem foldl_optionsStep_panic (opts : List GormOption) (v : PanicValue) (w : World) :
    opts.foldl optionsStep (Outcome.panic v, w) = (Outcome.panic v, w) := by
  induction opts with
  | nil => rfl
  | cons o os ih => simpa [List.foldl, optionsStep] using ih

/-- The loop of `Options` is the left fold of `optionsStep`. -/
theorem Options_eq_foldl (opts : List GormOption) (g : Ptr) (w : World) :
    Gorm.Options g opts w = opts.foldl optionsStep (Outcome.ret g, w) := by
  induction opts generalizing g w with
  | nil => rfl
  | cons o os ih =>
    simp only [Gorm.Options, List.foldl, optionsStep]
    rcases h : o g w with ⟨r, w1⟩
    cases r with
    | ret g1 => simp [ih]
    | panic v => simp [foldl_optionsStep_panic]

/-- C9: `g.Options(o1, ..., on)` is the left-to-right fold of the options over
the handle, so `Options` of `xs ++ ys` is `Options` of `ys` applied to the
handle and world that `Options` of `xs` returns (a panic of an option of `xs`
ends the call); with no option the call returns `g` itself and leaves the
world, hence every handle and its clauses, as it was. -/
theorem Options_fold (g : Ptr) (xs ys : List GormOption) (w : World) :
    Gorm.Options g (xs ++ ys) w = (xs ++ ys).foldl optionsStep (Outcome.ret g, w) ∧
    Gorm.Options g (xs ++ ys) w =
      (match Gorm.Options g xs w with
       | (Outcome.panic v, w1) => (Outcome.panic v, w1)
       | (Outcome.ret g1, w1) => Gorm.Options g1 ys w1) ∧
    Gorm.Options g [] w = (Outcome.ret g, w) := by
  refine ⟨Options_eq_foldl _ g w, ?_, rfl⟩
  induction xs generalizing g w with
  | nil => rfl
  | cons o os ih =>
    simp only [List.cons_append, Gorm.Options]
    rcases h : o g w with ⟨r, w1⟩
    cases r with
    | ret g1 => simpa using ih g1 w1
    | panic v => rfl

/-- An object of a heap keeps its address and contents when another one is
allocated, and the new one gets a different address. -/
theorem heap_get_alloc {α : Type} (h : List α) (G : α) (g : Nat) (G0 : α)
    (hg : h.get? g = some G0) :
    (h ++ [G]).get? g = some G0 ∧ g ≠ h.length ∧ (h ++ [G]).get? h.length = some G := by
  have hlt : g < h.length := by
    rcases Nat.lt_or_ge g h.length with hlt | hge
    · exact hlt
    · rw [List.get?_eq_none.mpr hge] at hg; cases hg
  refine ⟨?_, Nat.ne_of_lt hlt, ?_⟩
  · rw [List.get?_eq_getElem?, List.getElem?_append_left hlt, ← List.get?_eq_getElem?]
    exact hg
  · simp

/-- An object of a heap keeps its contents when another one is overwritten. -/
theorem heap_get_set {α : Type} (h : List α) (p q : Nat) (x y : α)
    (hq : h.get? q = some y) (hne : q ≠ p) :
    (h.set p x).get? q = some y := by
  rw [List.get?_eq_getElem?] at hq ⊢
  rw [List.getElem?_set_ne (Ne.symm hne)]
  exact hq

/-- The clause `Locking{Strength: "UPDATE"}` added to a statement: one locking
clause, of strength UPDATE, and the clauses of other names as they were. -/
theorem AddClause_locking (db : gorm.DB) :
    (db.AddClause (Clause.Locking "UPDATE")).anyLockCount = 1 ∧
    (db.AddClause (Clause.Locking "UPDATE")).lockCount "UPDATE" = 1 ∧
    (db.AddClause (Clause.Locking "UPDATE")).clauses.filter (fun c => c.Name ≠ "FOR") =
      db.clauses.filter (fun c => c.Name ≠ "FOR") := by
  refine ⟨?_, ?_, ?_⟩
  · simp [gorm.DB.anyLockCount, gorm.DB.AddClause, Clause.Name, List.countP_eq_zero]
  · simp [gorm.DB.lockCount, gorm.DB.AddClause, Clause.Name, List.count_eq_zero]
  · simp [gorm.DB.AddClause, Clause.Name, List.filter_filter]

/-- What `SetForUpdate` returns on a handle whose `*gorm.DB` is a session. -/
theorem SetForUpdate_session_eq (w : World) (g : Ptr) (G : Gorm) (dp : DBPtr) (db : gorm.DB)
    (hg : w.heap.get? g = some G) (hdb : G.DB = some dp) (hp : w.dbs.get? dp = some db)
    (hc : 0 < db.clone) :
    SetForUpdate g w = (Outcome.ret w.heap.length,
      { heap := w.heap ++ [{ DB := some w.dbs.length, conn := G.conn }],
        dbs := w.dbs ++ [db.instance.AddClause (Clause.Locking "UPDATE")],
        log := w.log }) := by
  rw [List.get?_eq_getElem?] at hg hp
  simp [SetForUpdate, hg, hdb, hp, hc, gorm.DB.Clauses, gorm.DB.getInstance, Gorm.clone,
    Gorm.setDB, alloc, allocDB]

/-- What `SetForUpdate` returns on a handle whose `*gorm.DB` is the result of a
chain method: the clause is added to that object, and the new handle shares it. -/
theorem SetForUpdate_chained_eq (w : World) (g : Ptr) (G : Gorm) (dp : DBPtr) (db : gorm.DB)
    (hg : w.heap.get? g = some G) (hdb : G.DB = some dp) (hp : w.dbs.get? dp = some db)
    (hc : db.clone = 0) :
    SetForUpdate g w = (Outcome.ret w.heap.length,
      { heap := w.heap ++ [{ DB := some dp, conn := G.conn }],
        dbs := w.dbs.set dp (db.AddClause (Clause.Locking "UPDATE")),
        log := w.log }) := by
  have hlt : dp < w.dbs.length := by
    rcases Nat.lt_or_ge dp w.dbs.length with hlt | hge
    · exact hlt
    · rw [List.get?_eq_none.mpr hge] at hp; cases hp
  rw [List.get?_eq_getElem?] at hg hp
  simp [SetForUpdate, hg, hdb, hp, hc, gorm.DB.Clauses, gorm.DB.getInstance, Gorm.clone,
    Gorm.setDB, alloc]

/-- C10, as the code has it: on a handle `g` whose `DB` is a gorm session
(`clone > 0`, which is what `WithContext` and `Begin` store in the handles they
return), `SetForUpdate()(g)` returns a new handle (an address other than `g`)
whose `conn` is `g.conn` and whose `DB` is a new `*gorm.DB`: the instance of
`g.DB` with the clause `Locking{Strength: "UPDATE"}` added. That `*gorm.DB`
carries exactly one locking clause, of strength UPDATE; its other fields are
those of `g.DB`, and for a session made by `WithContext` or `Begin` (`clone`
2) so are its other clauses. `g`, every other existing handle and every
existing `*gorm.DB`, the one of `g` included, stay as they were, so a later
call through `g` builds its statement on the unchanged `g.DB`; no call is made
to the database. -/
theorem SetForUpdate_spec (w : World) (g : Ptr) (G : Gorm) (dp : DBPtr) (db : gorm.DB)
    (ctx : Context)
    (hg : w.heap.get? g = some G) (hdb : G.DB = some dp) (hp : w.dbs.get? dp = some db)
    (hc : 0 < db.clone) :
    (SetForUpdate g w).1 = Outcome.ret w.heap.length ∧
    w.heap.length ≠ g ∧
    (SetForUpdate g w).2.heap.get? w.heap.length =
      some { DB := some w.dbs.length, conn := G.conn } ∧
    w.dbs.length ≠ dp ∧
    (SetForUpdate g w).2.dbs.get? w.dbs.length =
      some (db.instance.AddClause (Clause.Locking "UPDATE")) ∧
    (db.instance.AddClause (Clause.Locking "UPDATE")).anyLockCount = 1 ∧
    (db.instance.AddClause (Clause.Locking "UPDATE")).lockCount "UPDATE" = 1 ∧
    (db.clone = 2 →
      (db.instance.AddClause (Clause.Locking "UPDATE")).clauses.filter
          (fun c => c.Name ≠ "FOR") = db.clauses.filter (fun c => c.Name ≠ "FOR")) ∧
    { db.instance.AddClause (Clause.Locking "UPDATE") with
        clauses := db.clauses, clone := db.clone } = db ∧
    (∀ q Q, w.heap.get? q = some Q → (SetForUpdate g w).2.heap.get? q = some Q) ∧
    (∀ q d, w.dbs.get? q = some d → (SetForUpdate g w).2.dbs.get? q = some d) ∧
    repo.statementDB { db := g } ctx [] (SetForUpdate g w).2 =
      (Outcome.ret (some dp), (SetForUpdate g w).2) ∧
    (SetForUpdate g w).2.log = w.log := by
  rw [SetForUpdate_session_eq w g G dp db hg hdb hp hc]
  have hA := heap_get_alloc w.heap { DB := some w.dbs.length, conn := G.conn } g G hg
  have hB := heap_get_alloc w.dbs (db.instance.AddClause (Clause.Locking "UPDATE")) dp db hp
  have hL := AddClause_locking db.instance
  refine ⟨rfl, fun h => hA.2.1 h.symm, hA.2.2, fun h => hB.2.1 h.symm, hB.2.2, hL.1, hL.2.1,
    ?_, rfl, ?_, ?_, ?_, rfl⟩
  · intro h2
    rw [hL.2.2]
    simp [gorm.DB.instance, h2]
  · intro q Q hq
    exact (heap_get_alloc w.heap _ q Q hq).1
  · intro q d hq
    exact (heap_get_alloc w.dbs _ q d hq).1
  · simp only [repo.statementDB, Gorm.WithContext, hA.1, hdb, Gorm.Options, Gorm.GormDB]

/-- Witness of C10 as the code has it: the context-bound handle at address 1
of the sample world, whose `*gorm.DB` is the session at address 1. -/
theorem SetForUpdate_spec_witness :
    (SetForUpdate 1 sampleWorld).1 = Outcome.ret 2 ∧
    (SetForUpdate 1 sampleWorld).2.heap.get? 2 =
      some { DB := some 2, conn := { db := some 0, cfg := none } } ∧
    (SetForUpdate 1 sampleWorld).2.dbs.get? 2 =
      some ((sampleDB.WithContext 7).instance.AddClause (Clause.Locking "UPDATE")) ∧
    (SetForUpdate 1 sampleWorld).2.heap.get? 1 = sampleWorld.heap.get? 1 ∧
    (SetForUpdate 1 sampleWorld).2.dbs.get? 1 = sampleWorld.dbs.get? 1 :=
  have h := SetForUpdate_spec sampleWorld 1
    { DB := some 1, conn := { db := some 0, cfg := none } } 1 (sampleDB.WithContext 7) 9
    rfl rfl rfl (by decide)
  ⟨h.1, h.2.2.1, h.2.2.2.2.1, h.2.2.2.2.2.2.2.2.2.1 1 _ rfl,
   h.2.2.2.2.2.2.2.2.2.2.1 1 _ rfl⟩

/-- Counterexample to C10: a handle whose `DB` is set to a `*gorm.DB` that a
chain method returned, with no locking clause. `SetForUpdate()` returns a new
handle that shares that very `*gorm.DB`, and the clause is added to it in
place: `g.DB` carries no locking clause before the call and one after it, and
a later call through `g` builds its statement on the locked `*gorm.DB`. -/
theorem SetForUpdate_chained_changes_receiver :
    chainedWorld.heap.get? 0 = some { DB := some 0, conn := { db := none, cfg := none } } ∧
    (chainedWorld.dbs.get? 0).map gorm.DB.anyLockCount = some 0 ∧
    (SetForUpdate 0 chainedWorld).1 = Outcome.ret 1 ∧
    (SetForUpdate 0 chainedWorld).2.heap.get? 1 =
      some { DB := some 0, conn := { db := none, cfg := none } } ∧
    (SetForUpdate 0 chainedWorld).2.heap.get? 0 = chainedWorld.heap.get? 0 ∧
    ((SetForUpdate 0 chainedWorld).2.dbs.get? 0).map gorm.DB.anyLockCount = some 1 ∧
    repo.statementDB { db := 0 } 9 [] (SetForUpdate 0 chainedWorld).2 =
      (Outcome.ret (some 0), (SetForUpdate 0 chainedWorld).2) ∧
    ¬ ((SetForUpdate 0 chainedWorld).2.dbs.get? 0 = chainedWorld.dbs.get? 0) := by
  refine ⟨rfl, rfl, rfl, rfl, rfl, rfl, rfl, ?_⟩
  decide

/-! ## The transaction scope -/

/-- A `Commit` that returns has recorded the call and nothing else, on a bound
handle, and returns what the database answered. -/
theorem Commit_ret_inv (be : Backend) (tx : Ptr) (w w1 : World) (r : Option Error)
    (h : Gorm.Commit be tx w = (Outcome.ret r, w1)) :
    w1 = { w with log := w.log ++ [Event.commit tx] } ∧
    ∃ G dp db, w.heap.get? tx = some G ∧ G.DB = some dp ∧ w.dbs.get? dp = some db ∧
      r = be.commitErr db w.log := by
  unfold Gorm.Commit Gorm.GormDB at h
  cases hg : w.heap.get? tx with
  | none => simp only [hg] at h; simp at h
  | some G =>
    cases hd : G.DB with
    | none => simp only [hg, hd] at h; simp at h
    | some dp =>
      cases hp : w.dbs.get? dp with
      | none => simp only [hg, hd, hp] at h; simp at h
      | some db =>
        simp only [hg, hd, hp] at h
        injection h with h1 h2
        injection h1 with h1
        exact ⟨h2.symm, G, dp, db, rfl, hd, hp, h1.symm⟩

/-- A `Rollback` that returns has recorded the call and nothing else, on a
bound handle, and returns what the database answered. -/
theorem Rollback_ret_inv (be : Backend) (tx : Ptr) (w w1 : World) (r : Option Error)
    (h : Gorm.Rollback be tx w = (Outcome.ret r, w1)) :
    w1 = { w with log := w.log ++ [Event.rollback tx] } ∧
    ∃ G dp db, w.heap.get? tx = some G ∧ G.DB = some dp ∧ w.dbs.get? dp = some db ∧
      r = be.rollbackErr db w.log := by
  unfold Gorm.Rollback Gorm.GormDB at h
  cases hg : w.heap.get? tx with
  | none => simp only [hg] at h; simp at h
  | some G =>
    cases hd : G.DB with
    | none => simp only [hg, hd] at h; simp at h
    | some dp =>
      cases hp : w.dbs.get? dp with
      | none => simp only [hg, hd, hp] at h; simp at h
      | some db =>
        simp only [hg, hd, hp] at h
        injection h with h1 h2
        injection h1 with h1
        exact ⟨h2.symm, G, dp, db, rfl, hd, hp, h1.symm⟩

/-- On a bound handle `Commit` returns the answer of the database. -/
theorem Commit_of_bound (be : Backend) (tx : Ptr) (w : World) (G : Gorm) (dp : DBPtr)
    (db : gorm.DB)
    (hg : w.heap.get? tx = some G) (hd : G.DB = some dp) (hp : w.dbs.get? dp = some db) :
    Gorm.Commit be tx w =
      (Outcome.ret (be.commitErr db w.log), { w with log := w.log ++ [Event.commit tx] }) := by
  simp only [Gorm.Commit, Gorm.GormDB, hg, hd, hp]

/-- On a bound handle `Rollback` returns the answer of the database. -/
theorem Rollback_of_bound (be : Backend) (tx : Ptr) (w : World) (G : Gorm) (dp : DBPtr)
    (db : gorm.DB)
    (hg : w.heap.get? tx = some G) (hd : G.DB = some dp) (hp : w.dbs.get? dp = some db) :
    Gorm.Rollback be tx w =
      (Outcome.ret (be.rollbackErr db w.log), { w with log := w.log ++ [Event.rollback tx] }) := by
  simp only [Gorm.Rollback, Gorm.GormDB, hg, hd, hp]

/-- The events the deferred function logs are not transaction calls. -/
theorem rollbackLog_calls (ctx : Context) (tx : Ptr) (r : Option Error) :
    commitCalls tx (rollbackLog ctx r) = 0 ∧ rollbackCalls tx (rollbackLog ctx r) = 0 := by
  cases r <;> simp [rollbackLog, commitCalls, rollbackCalls]

/-- C5: in a run where `Begin` succeeds with the handle `tx`, the closure returns
nil and `Commit` returns nil, `Transaction` returns nil, and after the closure
it makes exactly one call, `Commit` on `tx`: one more `Commit` than the
closure left in the log and no `Rollback`. -/
theorem Transaction_commit_path (be : Backend) (r : repo) (ctx : Context) (fc : TxClosure)
    (w w1 w2 w3 : World) (tx : Ptr)
    (hB : Gorm.Begin be r.db ctx [] w = (Outcome.ret (Except.ok tx), w1))
    (hF : fc { db := tx } w1 = (Outcome.ret none, w2))
    (hC : Gorm.Commit be tx w2 = (Outcome.ret none, w3)) :
    repo.Transaction be r ctx fc w = (Outcome.ret none, w3) ∧
    w3.log = w2.log ++ [Event.commit tx] ∧
    commitCalls tx w3.log = commitCalls tx w2.log + 1 ∧
    rollbackCalls tx w3.log = rollbackCalls tx w2.log := by
  have hw := (Commit_ret_inv be tx w2 w3 none hC).1
  refine ⟨?_, ?_, ?_, ?_⟩
  · simp [repo.Transaction, hB, Transaction.body, hF, hC, Transaction.deferred]
  · rw [hw]
  · rw [hw]; simp [commitCalls, List.count_append]
  · rw [hw]; simp [rollbackCalls, List.count_append]

/-- Witness of C5: the sample handle, a closure returning nil, a database that
accepts the commit. -/
theorem Transaction_commit_path_witness :
    repo.Transaction sampleBackend { db := 0 } 7 fcNil sampleWorld =
      (Outcome.ret none,
        (Gorm.Commit sampleBackend 3 (Gorm.Begin sampleBackend 0 7 [] sampleWorld).2).2) ∧
    commitCalls 3 (repo.Transaction sampleBackend { db := 0 } 7 fcNil sampleWorld).2.log = 1 :=
  have h := Transaction_commit_path sampleBackend { db := 0 } 7 fcNil sampleWorld
    (Gorm.Begin sampleBackend 0 7 [] sampleWorld).2
    (Gorm.Begin sampleBackend 0 7 [] sampleWorld).2
    (Gorm.Commit sampleBackend 3 (Gorm.Begin sampleBackend 0 7 [] sampleWorld).2).2 3 rfl rfl rfl
  ⟨h.1, by rw [h.1]; decide⟩

/-- C6: in a run where `Begin` succeeds with the handle `tx`, the closure returns
the error `e` and `Rollback` returns (nil or an error), `Transaction` returns
exactly `e`, and after the closure it calls `Rollback` on `tx` once and never
`Commit`; an error of `Rollback` is logged and nothing more. -/
theorem Transaction_error_path (be : Backend) (r : repo) (ctx : Context) (fc : TxClosure)
    (w w1 w2 w3 : World) (tx : Ptr) (e : Error) (rb : Option Error)
    (hB : Gorm.Begin be r.db ctx [] w = (Outcome.ret (Except.ok tx), w1))
    (hF : fc { db := tx } w1 = (Outcome.ret (some e), w2))
    (hR : Gorm.Rollback be tx w2 = (Outcome.ret rb, w3)) :
    repo.Transaction be r ctx fc w =
      (Outcome.ret (some e), { w3 with log := w3.log ++ rollbackLog ctx rb }) ∧
    (repo.Transaction be r ctx fc w).2.log =
      w2.log ++ Event.rollback tx :: rollbackLog ctx rb ∧
    commitCalls tx (repo.Transaction be r ctx fc w).2.log = commitCalls tx w2.log ∧
    rollbackCalls tx (repo.Transaction be r ctx fc w).2.log = rollbackCalls tx w2.log + 1 := by
  have hw := (Rollback_ret_inv be tx w2 w3 rb hR).1
  have hT : repo.Transaction be r ctx fc w =
      (Outcome.ret (some e), { w3 with log := w3.log ++ rollbackLog ctx rb }) := by
    cases rb <;>
      simp [repo.Transaction, hB, Transaction.body, hF, hR, Transaction.deferred, rollbackLog]
  have hc := rollbackLog_calls ctx tx rb
  refine ⟨hT, ?_, ?_, ?_⟩
  · rw [hT, hw]; simp
  · rw [hT, hw]
    simp only [commitCalls] at hc ⊢
    simp [List.count_append, hc.1]
  · rw [hT, hw]
    simp only [rollbackCalls] at hc ⊢
    simp [List.count_append, hc.2]

/-- Witness of C6: the closure returns `boom` and the rollback itself fails. -/
theorem Transaction_error_path_witness :
    (repo.Transaction sampleBackendRollbackFails { db := 0 } 7 fcErr sampleWorld).1 =
      Outcome.ret (some "boom") ∧
    rollbackCalls 3
      (repo.Transaction sampleBackendRollbackFails { db := 0 } 7 fcErr sampleWorld).2.log = 1 :=
  have h := Transaction_error_path sampleBackendRollbackFails { db := 0 } 7 fcErr sampleWorld
    (Gorm.Begin sampleBackendRollbackFails 0 7 [] sampleWorld).2
    (Gorm.Begin sampleBackendRollbackFails 0 7 [] sampleWorld).2
    (Gorm.Rollback sampleBackendRollbackFails 3
      (Gorm.Begin sampleBackendRollbackFails 0 7 [] sampleWorld).2).2
    3 "boom" (some "rollback broke") rfl rfl rfl
  ⟨by rw [h.1], by rw [h.1]; decide⟩

/-- C7: in a run where `Begin` succeeds with the handle `tx`, the closure panics
with `v` and `Rollback` returns (nil or an error), `Transaction` does not
return: it panics with the same `v`, after calling `Rollback` on `tx` once and
never `Commit`. -/
theorem Transaction_panic_path (be : Backend) (r : repo) (ctx : Context) (fc : TxClosure)
    (w w1 w2 w3 : World) (tx : Ptr) (v : PanicValue) (rb : Option Error)
    (hB : Gorm.Begin be r.db ctx [] w = (Outcome.ret (Except.ok tx), w1))
    (hF : fc { db := tx } w1 = (Outcome.panic v, w2))
    (hR : Gorm.Rollback be tx w2 = (Outcome.ret rb, w3)) :
    repo.Transaction be r ctx fc w =
      (Outcome.panic v, { w3 with log := w3.log ++ rollbackLog ctx rb }) ∧
    (repo.Transaction be r ctx fc w).2.log =
      w2.log ++ Event.rollback tx :: rollbackLog ctx rb ∧
    commitCalls tx (repo.Transaction be r ctx fc w).2.log = commitCalls tx w2.log ∧
    rollbackCalls tx (repo.Transaction be r ctx fc w).2.log = rollbackCalls tx w2.log + 1 := by
  have hw := (Rollback_ret_inv be tx w2 w3 rb hR).1
  have hT : repo.Transaction be r ctx fc w =
      (Outcome.panic v, { w3 with log := w3.log ++ rollbackLog ctx rb }) := by
    cases rb <;>
      simp [repo.Transaction, hB, Transaction.body, hF, hR, Transaction.deferred, rollbackLog]
  have hc := rollbackLog_calls ctx tx rb
  refine ⟨hT, ?_, ?_, ?_⟩
  · rw [hT, hw]; simp
  · rw [hT, hw]
    simp only [commitCalls] at hc ⊢
    simp [List.count_append, hc.1]
  · rw [hT, hw]
    simp only [rollbackCalls] at hc ⊢
    simp [List.count_append, hc.2]

/-- Witness of C7: the closure panics with `kaboom`. -/
theorem Transaction_panic_path_witness :
    (repo.Transaction sampleBackend { db := 0 } 7 fcPanic sampleWorld).1 =
      Outcome.panic "kaboom" ∧
    rollbackCalls 3 (repo.Transaction sampleBackend { db := 0 } 7 fcPanic sampleWorld).2.log = 1 :=
  have h := Transaction_panic_path sampleBackend { db := 0 } 7 fcPanic sampleWorld
    (Gorm.Begin sampleBackend 0 7 [] sampleWorld).2
    (Gorm.Begin sampleBackend 0 7 [] sampleWorld).2
    (Gorm.Rollback sampleBackend 3 (Gorm.Begin sampleBackend 0 7 [] sampleWorld).2).2
    3 "kaboom" none rfl rfl rfl
  ⟨by rw [h.1], by rw [h.1]; decide⟩

/-- C8, as the code has it: in a run where `Begin` succeeds with the handle `tx`
and the closure leaves that handle bound to a `*gorm.DB`, `Transaction`
terminates the transaction once on three exit paths (one `Commit` when the closure returns nil
and the commit succeeds, one `Rollback` when the closure returns an error or
panics) and twice when `Commit` returns an error: the failed `Commit` is
followed by one `Rollback`. -/
theorem Transaction_termination_calls (be : Backend) (r : repo) (ctx : Context)
    (fc : TxClosure) (w w1 w2 : World) (tx : Ptr) (o : Outcome (Option Error))
    (G : Gorm) (dp : DBPtr) (db : gorm.DB)
    (hB : Gorm.Begin be r.db ctx [] w = (Outcome.ret (Except.ok tx), w1))
    (hF : fc { db := tx } w1 = (o, w2))
    (hG : w2.heap.get? tx = some G) (hD : G.DB = some dp) (hP : w2.dbs.get? dp = some db) :
    (repo.Transaction be r ctx fc w).2.log = w2.log ++ exitCalls be ctx tx db w2.log o ∧
    termCalls tx (repo.Transaction be r ctx fc w).2.log =
      termCalls tx w2.log +
        (if o = Outcome.ret none ∧ be.commitErr db w2.log ≠ none then 2 else 1) := by
  have hlog : (repo.Transaction be r ctx fc w).2.log = w2.log ++ exitCalls be ctx tx db w2.log o := by
    cases o with
    | panic v =>
      have hR := Rollback_of_bound be tx w2 G dp db hG hD hP
      cases hrb : be.rollbackErr db w2.log <;>
        simp [repo.Transaction, hB, Transaction.body, hF, hR, hrb, Transaction.deferred,
          rollbackLog, exitCalls]
    | ret e =>
      cases e with
      | some e =>
        have hR := Rollback_of_bound be tx w2 G dp db hG hD hP
        cases hrb : be.rollbackErr db w2.log <;>
          simp [repo.Transaction, hB, Transaction.body, hF, hR, hrb, Transaction.deferred,
            rollbackLog, exitCalls]
      | none =>
        have hC := Commit_of_bound be tx w2 G dp db hG hD hP
        cases hce : be.commitErr db w2.log with
        | none =>
          simp [repo.Transaction, hB, Transaction.body, hF, hC, hce, Transaction.deferred,
            exitCalls]
        | some ce =>
          have hR := Rollback_of_bound be tx
            { w2 with log := w2.log ++ [Event.commit tx] } G dp db hG hD hP
          cases hrb : be.rollbackErr db (w2.log ++ [Event.commit tx]) <;>
            simp [repo.Transaction, hB, Transaction.body, hF, hC, hce, hR, hrb,
              Transaction.deferred, rollbackLog, exitCalls]
  refine ⟨hlog, ?_⟩
  rw [hlog]
  cases o with
  | panic v =>
    cases hrb : be.rollbackErr db w2.log <;>
      simp [exitCalls, hrb, rollbackLog, termCalls, commitCalls, rollbackCalls,
        List.count_append] <;> omega
  | ret e =>
    cases e with
    | some e =>
      cases hrb : be.rollbackErr db w2.log <;>
        simp [exitCalls, hrb, rollbackLog, termCalls, commitCalls, rollbackCalls,
          List.count_append] <;> omega
    | none =>
      cases hce : be.commitErr db w2.log with
      | none =>
        simp [exitCalls, hce, termCalls, commitCalls, rollbackCalls, List.count_append]
        omega
      | some ce =>
        cases hrb : be.rollbackErr db (w2.log ++ [Event.commit tx]) <;>
          simp [exitCalls, hce, hrb, rollbackLog, termCalls, commitCalls, rollbackCalls,
            List.count_append] <;> omega

/-- Witness of C8 as the code has it: the commit fails and is followed by a rollback. -/
theorem Transaction_termination_calls_witness :
    termCalls 3
      (repo.Transaction sampleBackendCommitFails { db := 0 } 7 fcNil sampleWorld).2.log =
      termCalls 3 (Gorm.Begin sampleBackendCommitFails 0 7 [] sampleWorld).2.log + 2 :=
  (Transaction_termination_calls sampleBackendCommitFails { db := 0 } 7 fcNil sampleWorld
    (Gorm.Begin sampleBackendCommitFails 0 7 [] sampleWorld).2
    (Gorm.Begin sampleBackendCommitFails 0 7 [] sampleWorld).2
    3 (Outcome.ret none)
    { DB := some 3, conn := { db := some 0, cfg := none } } 3
    { sampleDB.WithContext 7 with inTx := true } rfl rfl rfl rfl rfl).2

/-- Counterexample to C8: `Begin` succeeds with the handle 3, the closure returns
nil and `Commit` returns an error; `Transaction` returns that error after two
terminating calls on the handle, `Commit` and then `Rollback`, not one. -/
theorem Transaction_commit_error_two_calls :
    (Gorm.Begin sampleBackendCommitFails 0 7 [] sampleWorld).1 = Outcome.ret (Except.ok 3) ∧
    (repo.Transaction sampleBackendCommitFails { db := 0 } 7 fcNil sampleWorld).1 =
      Outcome.ret (some "commit failed") ∧
    (repo.Transaction sampleBackendCommitFails { db := 0 } 7 fcNil sampleWorld).2.log =
      [Event.beginTx (sampleDB.WithContext 7) [], Event.commit 3, Event.rollback 3] ∧
    ¬ (termCalls 3
      (repo.Transaction sampleBackendCommitFails { db := 0 } 7 fcNil sampleWorld).2.log = 1) := by
  refine ⟨rfl, rfl, rfl, ?_⟩
  decide

/-! ## Binding a handle to a context -/

/-- What `WithContext` returns on a handle whose `DB` is set: the handle itself. -/
theorem WithContext_bound (w : World) (g : Ptr) (G : Gorm) (db : DBPtr) (ctx : Context)
    (hg : w.heap.get? g = some G) (hd : G.DB = some db) :
    Gorm.WithContext g ctx w = (Outcome.ret g, w) := by
  simp only [Gorm.WithContext, hg, hd]

/-- What `WithContext` returns on an unbound handle that holds a connection: a
new handle, bound to a new session of the connection with the context set. -/
theorem WithContext_unbound (w : World) (g : Ptr) (G : Gorm) (cp : DBPtr) (cdb : gorm.DB)
    (ctx : Context)
    (hg : w.heap.get? g = some G) (hd : G.DB = none) (hc : G.conn.db = some cp)
    (hp : w.dbs.get? cp = some cdb) :
    Gorm.WithContext g ctx w = (Outcome.ret w.heap.length,
      { heap := w.heap ++ [{ DB := some w.dbs.length, conn := G.conn }],
        dbs := w.dbs ++ [cdb.WithContext ctx],
        log := w.log }) := by
  simp only [Gorm.WithContext, hg, hd, hc, hp, alloc, allocDB]

/-- A handle that `WithContext` returns is bound. -/
theorem WithContext_ret_bound (w w1 : World) (g p : Ptr) (ctx : Context)
    (h : Gorm.WithContext g ctx w = (Outcome.ret p, w1)) :
    ∃ P db, w1.heap.get? p = some P ∧ P.DB = some db := by
  unfold Gorm.WithContext at h
  cases hg : w.heap.get? g with
  | none => simp only [hg] at h; simp at h
  | some G =>
    cases hd : G.DB with
    | some db =>
      simp only [hg, hd] at h
      injection h with h1 h2
      injection h1 with h1
      subst h1 h2
      exact ⟨G, db, hg, hd⟩
    | none =>
      cases hc : G.conn.db with
      | none => simp only [hg, hd, hc] at h; simp at h
      | some cp =>
        cases hp : w.dbs.get? cp with
        | none => simp only [hg, hd, hc, hp] at h; simp at h
        | some cdb =>
          simp only [hg, hd, hc, hp, alloc, allocDB] at h
          injection h with h1 h2
          injection h1 with h1
          subst h1 h2
          exact ⟨{ DB := some w.dbs.length, conn := G.conn }, w.dbs.length, by simp, rfl⟩

/-- C12, as the code has it: on a handle `g` whose `DB` is set (bound to a
context or to a transaction) `g.WithContext(ctx)` returns `g` itself and
changes nothing, so the context is ignored and the binding kept, and a
repository call made through such a handle builds its statement on that very
`*gorm.DB`, the transaction when it is one; a second `WithContext` on the
handle that a first one returned gives that handle back unchanged; on an
unbound handle that holds a connection (`conn.db` is set, as in every handle
made by `New`) it returns a new handle (another address) with the same `conn`,
bound to a new session of the connection with the context `ctx`, and `g`,
every other existing handle and every existing `*gorm.DB` stay as they were. -/
theorem WithContext_spec (w : World) (g : Ptr) (G : Gorm) (ctx ctx2 : Context)
    (hg : w.heap.get? g = some G) :
    (∀ db, G.DB = some db →
      Gorm.WithContext g ctx w = (Outcome.ret g, w) ∧
      repo.statementDB { db := g } ctx [] w = (Outcome.ret (some db), w)) ∧
    (∀ p w1, Gorm.WithContext g ctx w = (Outcome.ret p, w1) →
      Gorm.WithContext p ctx2 w1 = (Outcome.ret p, w1)) ∧
    (∀ cp cdb, G.DB = none → G.conn.db = some cp → w.dbs.get? cp = some cdb →
      Gorm.WithContext g ctx w = (Outcome.ret w.heap.length,
        { heap := w.heap ++ [{ DB := some w.dbs.length, conn := G.conn }],
          dbs := w.dbs ++ [cdb.WithContext ctx],
          log := w.log }) ∧
      w.heap.length ≠ g ∧
      (Gorm.WithContext g ctx w).2.heap.get? w.heap.length =
        some { DB := some w.dbs.length, conn := G.conn } ∧
      (Gorm.WithContext g ctx w).2.dbs.get? w.dbs.length = some (cdb.WithContext ctx) ∧
      (∀ q Q, w.heap.get? q = some Q → (Gorm.WithContext g ctx w).2.heap.get? q = some Q) ∧
      (∀ q d, w.dbs.get? q = some d → (Gorm.WithContext g ctx w).2.dbs.get? q = some d) ∧
      (Gorm.WithContext g ctx w).2.log = w.log) := by
  refine ⟨?_, ?_, ?_⟩
  · intro db hd
    have hW := WithContext_bound w g G db ctx hg hd
    refine ⟨hW, ?_⟩
    simp only [repo.statementDB, hW, Gorm.Options, Gorm.GormDB, hg, hd]
  · intro p w1 h
    obtain ⟨P, db, hp, hd⟩ := WithContext_ret_bound w w1 g p ctx h
    exact WithContext_bound w1 p P db ctx2 hp hd
  · intro cp cdb hd hc hp
    have hW := WithContext_unbound w g G cp cdb ctx hg hd hc hp
    have hA := heap_get_alloc w.heap { DB := some w.dbs.length, conn := G.conn } g G hg
    have hB := heap_get_alloc w.dbs (cdb.WithContext ctx) cp cdb hp
    rw [hW]
    refine ⟨rfl, fun h => hA.2.1 h.symm, hA.2.2, hB.2.2, ?_, ?_, rfl⟩
    · intro q Q hq
      exact (heap_get_alloc w.heap _ q Q hq).1
    · intro q d hq
      exact (heap_get_alloc w.dbs _ q d hq).1

/-- Witness of C12 as the code has it: in the sample world the handle at
address 1 is bound and the handle at address 0, the one `New` returns, is not. -/
theorem WithContext_spec_witness :
    Gorm.WithContext 1 9 sampleWorld = (Outcome.ret 1, sampleWorld) ∧
    repo.statementDB { db := 1 } 9 [] sampleWorld = (Outcome.ret (some 1), sampleWorld) ∧
    (Gorm.WithContext 0 9 sampleWorld).1 = Outcome.ret 2 ∧
    (Gorm.WithContext 0 9 sampleWorld).2.dbs.get? 2 = some (sampleDB.WithContext 9) ∧
    (Gorm.WithContext 0 9 sampleWorld).2.heap.get? 0 = sampleWorld.heap.get? 0 :=
  have h1 := (WithContext_spec sampleWorld 1
    { DB := some 1, conn := { db := some 0, cfg := none } } 9 11 rfl).1 1 rfl
  have h0 := (WithContext_spec sampleWorld 0
    { DB := none, conn := { db := some 0, cfg := none } } 9 11 rfl).2.2 0 sampleDB rfl rfl rfl
  ⟨h1.1, h1.2, by rw [h0.1]; rfl, h0.2.2.2.1, h0.2.2.2.2.1 0 _ rfl⟩

/-- A handle that holds no connection cannot be bound: `WithContext` panics. -/
theorem WithContext_no_connection (w : World) (g : Ptr) (G : Gorm) (ctx : Context)
    (hg : w.heap.get? g = some G) (hd : G.DB = none) (hc : G.conn.db = none) :
    Gorm.WithContext g ctx w = (Outcome.panic nilDeref, w) := by
  simp only [Gorm.WithContext, hg, hd, hc]

/-- Counterexample to C12: the zero value `&Gorm{}` is an unbound handle (its
`DB` is nil), and it holds no connection. `WithContext` does not return a new
handle on it: `g.conn.db.WithContext(ctx)` dereferences nil and the call
panics, leaving the world as it was. -/
theorem WithContext_zero_value_panics :
    zeroWorld.heap.get? 0 = some { DB := none, conn := { db := none, cfg := none } } ∧
    Gorm.WithContext 0 9 zeroWorld = (Outcome.panic nilDeref, zeroWorld) ∧
    ¬ ∃ p w1, Gorm.WithContext 0 9 zeroWorld = (Outcome.ret p, w1) := by
  refine ⟨rfl, rfl, ?_⟩
  rintro ⟨p, w1, h⟩
  have h2 : Gorm.WithContext 0 9 zeroWorld = (Outcome.panic nilDeref, zeroWorld) := rfl
  rw [h2] at h
  cases h

/-! ## Nested transactions -/

/-- Binding a handle to a context calls nothing. -/
theorem WithContext_log (g : Ptr) (ctx : Context) (w : World) :
    (Gorm.WithContext g ctx w).2.log = w.log := by
  unfold Gorm.WithContext
  cases hg : w.heap.get? g with
  | none => rfl
  | some G =>
    cases hd : G.DB with
    | some db => simp only [hd]
    | none =>
      cases hc : G.conn.db with
      | none => simp only [hd, hc]
      | some cp =>
        cases hp : w.dbs.get? cp with
        | none => simp only [hd, hc, hp]
        | some cdb => simp only [hd, hc, hp, alloc, allocDB]

/-- A successful `Begin` has begun one transaction on the database, on a pool
that was not a transaction, and returns a handle bound to it. -/
theorem Begin_ok_inv (be : Backend) (g tx : Ptr) (ctx : Context) (opts : List TxOptions)
    (w w1 : World) (h : Gorm.Begin be g ctx opts w = (Outcome.ret (Except.ok tx), w1)) :
    ∃ G dp db0, w1.heap.get? tx = some G ∧ G.DB = some dp ∧
      w1.dbs.get? dp = some { db0.session with inTx := true } ∧
      db0.inTx = false ∧ w1.log = w.log ++ [Event.beginTx db0 opts] := by
  unfold Gorm.Begin at h
  rcases hW : Gorm.WithContext g ctx w with ⟨o, wa⟩
  have hlog : wa.log = w.log := by
    have := WithContext_log g ctx w
    rw [hW] at this
    exact this
  rw [hW] at h
  cases o with
  | panic v => simp at h
  | ret p =>
    simp only [Gorm.GormDB] at h
    cases hp : wa.heap.get? p with
    | none => simp only [hp] at h; simp at h
    | some P =>
      cases hd : P.DB with
      | none => simp only [hp, hd] at h; simp at h
      | some dp =>
        cases hq : wa.dbs.get? dp with
        | none => simp only [hp, hd, hq] at h; simp at h
        | some db =>
          simp only [hp, hd, hq, gorm.DB.Begin] at h
          by_cases hin : db.inTx = true
          · simp [hin] at h
          · cases hb : be.beginErr db wa.log with
            | some e => simp [hin, hb] at h
            | none =>
              simp only [hin, hb, Bool.false_eq_true, if_false, allocDB] at h
              cases hg : wa.heap.get? g with
              | none => simp only [hg] at h; simp at h
              | some G =>
                simp only [hg, alloc] at h
                injection h with h1 h2
                injection h1 with h1
                injection h1 with h1
                subst h1 h2
                refine ⟨{ DB := some wa.dbs.length, conn := G.conn }, wa.dbs.length, db,
                  by simp, rfl, by simp, by simpa using hin, by simp [hlog]⟩

/-- The `*gorm.DB` that `WithContext` and `Begin` make are sessions. -/
theorem session_clone_pos (db : gorm.DB) (ctx : Context) :
    0 < (db.WithContext ctx).clone ∧ 0 < ({ db.session with inTx := true } : gorm.DB).clone := by
  refine ⟨by simp [gorm.DB.WithContext], ?_⟩
  by_cases h : db.clone = 1 <;> simp [gorm.DB.session, h]

/-- On a handle bound to a transaction `Begin` is rejected: it returns the
error of gorm and changes nothing. -/
theorem Begin_in_tx (be : Backend) (g : Ptr) (G : Gorm) (dp : DBPtr) (db : gorm.DB)
    (ctx : Context) (opts : List TxOptions) (w : World)
    (hg : w.heap.get? g = some G) (hd : G.DB = some dp) (hp : w.dbs.get? dp = some db)
    (hin : db.inTx = true) :
    Gorm.Begin be g ctx opts w = (Outcome.ret (Except.error "invalid transaction"), w) := by
  simp only [Gorm.Begin, Gorm.WithContext, Gorm.GormDB, hg, hd, hp, gorm.DB.Begin, hin,
    if_true]

/-- On a handle bound to a transaction `Transaction` returns the error of
`Begin`; its closure is not run and nothing is called. -/
theorem Transaction_in_tx (be : Backend) (g : Ptr) (G : Gorm) (dp : DBPtr) (db : gorm.DB)
    (ctx : Context) (fc : TxClosure) (w : World)
    (hg : w.heap.get? g = some G) (hd : G.DB = some dp) (hp : w.dbs.get? dp = some db)
    (hin : db.inTx = true) :
    repo.Transaction be { db := g } ctx fc w =
      (Outcome.ret (some "invalid transaction"), w) := by
  simp only [repo.Transaction, Begin_in_tx be g G dp db ctx [] w hg hd hp hin]

/-- What `Transaction` returns when `Begin` succeeds, the closure returns an
error and `Rollback` returns. -/
theorem Transaction_error_eq (be : Backend) (r : repo) (ctx : Context) (fc : TxClosure)
    (w w1 w2 w3 : World) (tx : Ptr) (e : Error) (rb : Option Error)
    (hB : Gorm.Begin be r.db ctx [] w = (Outcome.ret (Except.ok tx), w1))
    (hF : fc { db := tx } w1 = (Outcome.ret (some e), w2))
    (hR : Gorm.Rollback be tx w2 = (Outcome.ret rb, w3)) :
    repo.Transaction be r ctx fc w =
      (Outcome.ret (some e), { w3 with log := w3.log ++ rollbackLog ctx rb }) := by
  cases rb <;>
    simp [repo.Transaction, hB, Transaction.body, hF, hR, Transaction.deferred, rollbackLog]

/-- The events the deferred function logs begin no transaction. -/
theorem rollbackLog_beginCalls (ctx : Context) (r : Option Error) :
    beginCalls (rollbackLog ctx r) = 0 := by
  cases r <;> simp [rollbackLog, beginCalls]

/-- C11, as the code has it: once `Begin` has succeeded with the handle `tx`, a
nested `Transaction` started from that handle does not start a second physical
transaction, and does not join the first one either. `Begin` on a handle
already bound to a transaction is rejected by gorm with `invalid transaction`
before the database is reached, so the nested `Transaction` returns that error
without running its closure and without any call (the world is unchanged). For
the nest whose outer closure returns the result of the nested call, `BeginTx`
is called once in all, `Commit` is never called, and the outer `Transaction`
rolls back once and returns the error. -/
theorem nested_Transaction_rejected (be : Backend) (r : repo) (ctx ctx2 : Context)
    (inner : TxClosure) (w w1 : World) (tx : Ptr)
    (hB : Gorm.Begin be r.db ctx [] w = (Outcome.ret (Except.ok tx), w1)) :
    repo.Transaction be { db := tx } ctx2 inner w1 =
      (Outcome.ret (some "invalid transaction"), w1) ∧
    (∃ rb, repo.Transaction be r ctx (nestedClosure be ctx2 inner) w =
      (Outcome.ret (some "invalid transaction"),
        { w1 with log := w1.log ++ Event.rollback tx :: rollbackLog ctx rb })) ∧
    beginCalls (repo.Transaction be r ctx (nestedClosure be ctx2 inner) w).2.log =
      beginCalls w.log + 1 ∧
    commitCalls tx (repo.Transaction be r ctx (nestedClosure be ctx2 inner) w).2.log =
      commitCalls tx w.log ∧
    rollbackCalls tx (repo.Transaction be r ctx (nestedClosure be ctx2 inner) w).2.log =
      rollbackCalls tx w.log + 1 := by
  obtain ⟨G, dp, db0, hG, hD, hP, _, hlog⟩ := Begin_ok_inv be r.db tx ctx [] w w1 hB
  have hN : repo.Transaction be { db := tx } ctx2 inner w1 =
      (Outcome.ret (some "invalid transaction"), w1) :=
    Transaction_in_tx be tx G dp { db0.session with inTx := true } ctx2 inner w1 hG hD hP rfl
  have hR := Rollback_of_bound be tx w1 G dp { db0.session with inTx := true } hG hD hP
  have hT := Transaction_error_eq be r ctx (nestedClosure be ctx2 inner) w w1 w1 _ tx
    "invalid transaction" _ hB hN hR
  refine ⟨hN, ⟨be.rollbackErr { db0.session with inTx := true } w1.log, by rw [hT]; simp⟩, ?_⟩
  rw [hT]
  generalize be.rollbackErr { db0.session with inTx := true } w1.log = rb
  have hc := rollbackLog_calls ctx tx rb
  have hb := rollbackLog_beginCalls ctx rb
  simp only [beginCalls, commitCalls, rollbackCalls] at hb hc ⊢
  simp [hlog, List.countP_append, List.count_append, hb, hc.1, hc.2]

/-- Witness of C11 as the code has it: a nest of two closures on the handle
that `New` returns. -/
theorem nested_Transaction_rejected_witness :
    repo.Transaction sampleBackend { db := 3 } 8 fcNil
        (Gorm.Begin sampleBackend 0 7 [] sampleWorld).2 =
      (Outcome.ret (some "invalid transaction"), (Gorm.Begin sampleBackend 0 7 [] sampleWorld).2) ∧
    beginCalls
        (repo.Transaction sampleBackend { db := 0 } 7 (nestedClosure sampleBackend 8 fcNil)
          sampleWorld).2.log = beginCalls sampleWorld.log + 1 :=
  have h := nested_Transaction_rejected sampleBackend { db := 0 } 7 8 fcNil sampleWorld
    (Gorm.Begin sampleBackend 0 7 [] sampleWorld).2 3 rfl
  ⟨h.1, h.2.2.1⟩

/-- Counterexample to C11: on the handle that `New` returns, the outer `Begin`
succeeds with the handle 3. A nested `Transaction` on that handle whose closure
would panic returns `invalid transaction` and leaves the world as it was, so
its closure never runs on the parent's transaction. The nest of two closures
that return nil does not end committed: the outer `Transaction` returns the
error after one `BeginTx` and one `Rollback`. -/
theorem nested_Transaction_not_joined :
    (Gorm.Begin sampleBackend 0 7 [] sampleWorld).1 = Outcome.ret (Except.ok 3) ∧
    repo.Transaction sampleBackend { db := 3 } 8 fcPanic
        (Gorm.Begin sampleBackend 0 7 [] sampleWorld).2 =
      (Outcome.ret (some "invalid transaction"), (Gorm.Begin sampleBackend 0 7 [] sampleWorld).2) ∧
    (repo.Transaction sampleBackend { db := 0 } 7 (nestedClosure sampleBackend 8 fcNil)
        sampleWorld).1 = Outcome.ret (some "invalid transaction") ∧
    (repo.Transaction sampleBackend { db := 0 } 7 (nestedClosure sampleBackend 8 fcNil)
        sampleWorld).2.log =
      [Event.beginTx (sampleDB.WithContext 7) [], Event.rollback 3] ∧
    ¬ (repo.Transaction sampleBackend { db := 0 } 7 (nestedClosure sampleBackend 8 fcNil)
        sampleWorld).1 = Outcome.ret none := by
  refine ⟨rfl, rfl, rfl, rfl, ?_⟩
  decide

end Wgorm
